import Mathlib

/-!
# gr-plasma `usrp_radar`: transmit/receive pulse-timing coordinator

Shallow embedding of `lib/usrp_radar_impl.cc`.

Conventions of the embedding

* the arithmetic of `double` and of `uhd::time_spec_t` is a parameter
  (`Arith`): the definitions use the operations of the platform, whatever
  they round to; `binary64` is the instance used to run the definitions.
* `size_t` values are natural numbers, reduced modulo `2 ^ 64` where the
  source does arithmetic on them.
* a complex sample `gr_complex` is a pair of integers; the code only copies
  samples and creates zero samples.
* `pmt` values are the cons-cell objects of the GNU Radio PMT library;
  dictionaries are association lists and the empty dictionary is `PMT_NIL`.
* a `while (!d_finished)` loop is run over the list of the iterations it
  executes; each iteration comes with what the environment does during it
  (what `recv` delivers, which PDUs the control thread handles meanwhile).
-/

namespace gr.plasma

/-! ## Machine integers -/

/-- Number of values of a `size_t`. -/
def SIZE_T_MOD : Nat := 2 ^ 64

/-- Addition of two `size_t` values. -/
def size_t_add (a b : Nat) : Nat := (a + b) % SIZE_T_MOD

/-- Subtraction of two `size_t` values (wraps around below zero). -/
def size_t_sub (a b : Nat) : Nat := (a % SIZE_T_MOD + (SIZE_T_MOD - b % SIZE_T_MOD)) % SIZE_T_MOD

/-! ## Arithmetic of the platform -/

/-- Operations on `double` (type `D`) and on `uhd::time_spec_t` (type `T`)
that the block uses. They are parameters: a definition that computes with a
`double` applies these, so it says what the code computes on any platform. -/
structure Arith (D T : Type) where
  /-- Conversion of a `long` (or an `int` literal) to `double`. -/
  of_long : Int → D
  /-- Conversion of a `uint64_t` to `double`. -/
  of_uint64 : Nat → D
  /-- The literal `0.5`. -/
  half : D
  /-- Operator `+` of `double`. -/
  add : D → D → D
  /-- Operator `*` of `double`. -/
  mul : D → D → D
  /-- Operator `/` of `double`. -/
  div : D → D → D
  /-- The test `x > 0`. -/
  zero_lt : D → Bool
  /-- The test `x != 0`. -/
  ne_zero : D → Bool
  /-- The value `size_t(round(x))`: what the conversion of `round(x)` to
  `size_t` gives. -/
  round_to_size_t : D → Nat
  /-- Whether the conversion of `round(x)` to `size_t` is defined by the
  language: `round(x)` is a number from `0` to `2 ^ 64 - 1`. -/
  size_t_defined : D → Bool
  /-- Constructor `uhd::time_spec_t(double)`. -/
  time_of_double : D → T
  /-- Member `get_real_secs`. -/
  real_secs : T → D
  /-- Operator `+` of two time specs. -/
  time_add : T → T → T
  /-- Operator `+=` of a time spec with a `double`. -/
  time_add_double : T → D → T

/-! ## Samples and PMT values -/

/-- A complex baseband sample. -/
abbrev gr_complex : Type := Int × Int

/-- PMT objects, as far as the block meets them; a real holds a `double`. -/
inductive Pmt (D : Type) where
  | nil : Pmt D
  | bool (b : Bool) : Pmt D
  | symbol (s : String) : Pmt D
  | integer (n : Int) : Pmt D
  | uint64 (n : Nat) : Pmt D
  | real (x : D) : Pmt D
  | c32vector (v : List gr_complex) : Pmt D
  | f32vector (v : List Int) : Pmt D
  | pair (car cdr : Pmt D) : Pmt D
  deriving DecidableEq

namespace Pmt

variable {D T : Type}

def PMT_NIL : Pmt D := nil
def PMT_F : Pmt D := bool false

def is_null : Pmt D → Bool
  | nil => true
  | _ => false

def is_pair : Pmt D → Bool
  | pair _ _ => true
  | _ => false

/-- Function `pmt::car`; `none` stands for the `wrong_type` exception. -/
def car : Pmt D → Option (Pmt D)
  | pair a _ => some a
  | _ => none

/-- Function `pmt::cdr`; `none` stands for the `wrong_type` exception. -/
def cdr : Pmt D → Option (Pmt D)
  | pair _ d => some d
  | _ => none

def is_dict (p : Pmt D) : Bool := is_null p || is_pair p

def is_uniform_vector : Pmt D → Bool
  | c32vector _ => true
  | f32vector _ => true
  | _ => false

def is_pdu : Pmt D → Bool
  | pair a d => is_dict a && is_uniform_vector d
  | _ => false

/-- Function `pmt::eqv` on the objects that have a value (symbols, numbers,
booleans, nil); two other objects are `eqv` only when they are the same
object, which the embedding does not track: it answers `false`. -/
def eqv [DecidableEq D] : Pmt D → Pmt D → Bool
  | nil, nil => true
  | bool a, bool b => a == b
  | symbol a, symbol b => a == b
  | integer a, integer b => a == b
  | uint64 a, uint64 b => a == b
  | real a, real b => a == b
  | _, _ => false

/-- Function `pmt::assv`: the first `(key . value)` cell of an association
list whose key is `eqv` to `obj`, `PMT_F` when there is none or when a
malformed element is met first. -/
def assv [DecidableEq D] (obj : Pmt D) : Pmt D → Pmt D
  | pair (pair k v) rest => if eqv obj k then pair k v else assv obj rest
  | _ => PMT_F

def make_dict : Pmt D := PMT_NIL

def dict_ref [DecidableEq D] (dict key not_found : Pmt D) : Pmt D :=
  match assv key dict with
  | pair _ v => v
  | _ => not_found

def dict_has_key [DecidableEq D] (dict key : Pmt D) : Bool := is_pair (assv key dict)

/-- Function `pmt::dict_delete`; `none` stands for the `wrong_type` exception
that `caar` raises on a malformed association list. -/
def dict_delete [DecidableEq D] (key : Pmt D) : Pmt D → Option (Pmt D)
  | nil => some nil
  | pair (pair k v) rest =>
      if eqv k key then some rest
      else (dict_delete key rest).map (pair (pair k v))
  | _ => none

/-- Function `pmt::dict_add`. It calls `dict_delete` only after
`dict_has_key` has found the key, where `dict_delete` cannot raise
(`dict_delete_of_has_key`), so it always returns. -/
def dict_add [DecidableEq D] (dict key value : Pmt D) : Pmt D :=
  if is_null dict then pair (pair key value) PMT_NIL
  else if dict_has_key dict key then
    pair (pair key value) ((dict_delete key dict).getD dict)
  else pair (pair key value) dict

/-- The call `pmt::map(car, list)`, as a list: the keys of the cells of an
association list, up to the first tail that is not a pair; `none` stands for
the `wrong_type` exception that `car` raises on an element that is not a
pair. -/
def map_car : Pmt D → Option (List (Pmt D))
  | pair (pair k _) rest => (map_car rest).map (k :: ·)
  | pair _ _ => none
  | _ => some []

/-- Function `pmt::dict_keys` (`map(car, dict)`), as a list; `none` stands for
the `wrong_type` exception raised on a non-dictionary or on an element that is
not a pair. -/
def dict_keys (dict : Pmt D) : Option (List (Pmt D)) :=
  if is_dict dict then map_car dict else none

/-- Function `pmt::dict_update`: every key of `dict2` is added to `dict1` with
the value `dict2` gives it. -/
def dict_update [DecidableEq D] (dict1 dict2 : Pmt D) : Option (Pmt D) :=
  (dict_keys dict2).map
    (fun ks => ks.foldl (fun d k => dict_add d k (dict_ref dict2 k PMT_NIL)) dict1)

/-- Function `pmt::to_double`; `none` stands for the `wrong_type` exception. -/
def to_double (A : Arith D T) : Pmt D → Option D
  | real x => some x
  | integer n => some (A.of_long n)
  | uint64 n => some (A.of_uint64 n)
  | _ => none

/-- Function `pmt::c32vector_elements`; `none` stands for `wrong_type`. -/
def c32vector_elements : Pmt D → Option (List gr_complex)
  | c32vector v => some v
  | _ => none

def from_long (n : Int) : Pmt D := integer n

def from_uint64 (n : Nat) : Pmt D := uint64 n

end Pmt

variable {D T : Type}

/-! ## Block state -/

/-- What the sources do not fix: the arithmetic of the platform, and the
constants of `usrp_radar_impl.h`, which is not among the sources (the names of
the metadata keys, interned symbols, and the burst-mode delay in seconds). -/
structure Consts (D T : Type) where
  arith : Arith D T
  annotations : String
  captures : String
  prf : String
  sample_start : String
  frequency : String
  BURST_MODE_DELAY : D

def PMT_ANNOTATIONS (c : Consts D T) : Pmt D := Pmt.symbol c.annotations
def PMT_CAPTURES (c : Consts D T) : Pmt D := Pmt.symbol c.captures
def PMT_PRF (c : Consts D T) : Pmt D := Pmt.symbol c.prf
def PMT_SAMPLE_START (c : Consts D T) : Pmt D := Pmt.symbol c.sample_start
def PMT_FREQUENCY (c : Consts D T) : Pmt D := Pmt.symbol c.frequency

/-- Data members of `usrp_radar_impl` that the three threads share.
`d_finished` is not a field: a loop `while (!d_finished)` is run over the list
of the iterations it executes. -/
structure usrp_radar_impl (D T : Type) where
  d_samp_rate : D
  d_prf : D
  d_start_time : T
  d_burst_mode : Bool
  d_armed : Bool
  d_tx_buff : List gr_complex
  d_meta : Pmt D
  d_capture : Pmt D
  d_annotation : Pmt D
  d_pulse_count : Nat
  d_sample_count : Nat
  d_delay_samps : Nat
  deriving DecidableEq

/-- How a member function ended: it returned, or an exception left it; both
carry the data members as the function left them. -/
inductive Outcome (D T : Type) where
  | returned (s : usrp_radar_impl D T) : Outcome D T
  | raised (s : usrp_radar_impl D T) : Outcome D T
  deriving DecidableEq

def Outcome.state : Outcome D T → usrp_radar_impl D T
  | returned s => s
  | raised s => s

def Outcome.is_returned : Outcome D T → Bool
  | returned _ => true
  | raised _ => false

/-- Constructor body (lines 28-43); the members it leaves uninitialised are
arguments. -/
def constructor [DecidableEq D] (c : Consts D T) (samp_rate : D) (start_time : T)
    (burst_mode armed : Bool) (delay_samps : Nat) : usrp_radar_impl D T :=
  let d_meta0 : Pmt D := Pmt.make_dict
  let d_capture := Pmt.dict_add Pmt.make_dict (PMT_SAMPLE_START c) (Pmt.from_uint64 0)
  let d_meta1 := Pmt.dict_add d_meta0 (PMT_CAPTURES c) d_capture
  let d_annotation := Pmt.dict_add Pmt.make_dict (PMT_SAMPLE_START c) (Pmt.from_long 0)
  let d_meta2 := Pmt.dict_add d_meta1 (PMT_ANNOTATIONS c) d_annotation
  { d_samp_rate := samp_rate, d_prf := c.arith.of_long 0, d_start_time := start_time,
    d_burst_mode := burst_mode, d_armed := armed, d_tx_buff := [],
    d_meta := d_meta2, d_capture := d_capture, d_annotation := d_annotation,
    d_pulse_count := 0, d_sample_count := 0, d_delay_samps := delay_samps }

/-! ## `handle_message` (lines 129-157) -/

/-- Lines 137-143: the PRF entry of the annotations decides the mode; `none`
when `pmt::to_double` raises. -/
def hm_prf [DecidableEq D] (c : Consts D T) (s : usrp_radar_impl D T) (annotations : Pmt D) :
    Option (usrp_radar_impl D T) :=
  let new_prf := Pmt.dict_ref annotations (PMT_PRF c) Pmt.PMT_NIL
  if Pmt.is_null new_prf then some { s with d_burst_mode := false }
  else
    match Pmt.to_double c.arith new_prf with
    | none => none
    | some x => some { s with d_prf := x, d_burst_mode := true }

/-- Lines 133-145 of `handle_message`, before the mutex is taken: the metadata
of the PDU is merged into `d_meta` and the annotations are parsed. -/
def hm_parse [DecidableEq D] (c : Consts D T) (s : usrp_radar_impl D T) (metadata : Pmt D) :
    Outcome D T :=
  match Pmt.dict_update s.d_meta metadata with
  | none => Outcome.raised s
  | some m =>
    let s1 := { s with d_meta := m }
    let annotations := Pmt.dict_ref m (PMT_ANNOTATIONS c) Pmt.PMT_NIL
    let parsed : Option (usrp_radar_impl D T) :=
      if !Pmt.is_null annotations then hm_prf c s1 annotations else some s1
    match parsed with
    | none => Outcome.raised s1
    | some s2 => Outcome.returned { s2 with d_annotation := annotations }

/-- Line 147, first statement under the mutex: `d_tx_buff` is assigned the
samples of the payload. -/
def hm_assign (s : usrp_radar_impl D T) (payload : Pmt D) : Outcome D T :=
  match Pmt.c32vector_elements payload with
  | none => Outcome.raised s
  | some v => Outcome.returned { s with d_tx_buff := v }

/-- Number of zero samples put in front of a burst-mode waveform (line 152):
`round(d_samp_rate * BURST_MODE_DELAY)` converted to `size_t`. -/
def start_zeros_len (c : Consts D T) (s : usrp_radar_impl D T) : Nat :=
  c.arith.round_to_size_t (c.arith.mul s.d_samp_rate c.BURST_MODE_DELAY)

/-- Lines 148-154, under the mutex: in burst mode zeros are inserted at the
front of `d_tx_buff`. -/
def hm_pad (c : Consts D T) (s : usrp_radar_impl D T) : usrp_radar_impl D T :=
  if s.d_burst_mode then
    { s with d_tx_buff := List.replicate (start_zeros_len c s) ((0, 0) : gr_complex) ++ s.d_tx_buff }
  else s

/-- Line 155, last statement under the mutex. -/
def hm_arm (s : usrp_radar_impl D T) : usrp_radar_impl D T := { s with d_armed := true }

/-- Member function `handle_message`. -/
def handle_message [DecidableEq D] (c : Consts D T) (s : usrp_radar_impl D T) (msg : Pmt D) :
    Outcome D T :=
  match msg with
  | Pmt.pair metadata payload =>
    if Pmt.is_pdu msg then
      match hm_parse c s metadata with
      | Outcome.raised s1 => Outcome.raised s1
      | Outcome.returned s1 =>
        match hm_assign s1 payload with
        | Outcome.raised s2 => Outcome.raised s2
        | Outcome.returned s2 => Outcome.returned (hm_arm (hm_pad c s2))
    else Outcome.returned s
  | _ => Outcome.returned s

/-- The control thread handles a sequence of messages, one after the other. -/
def control [DecidableEq D] (c : Consts D T) (s : usrp_radar_impl D T) (msgs : List (Pmt D)) :
    usrp_radar_impl D T :=
  msgs.foldl (fun st m => (handle_message c st m).state) s

/-! ## `transmit_bursts` (lines 159-214) -/

/-- The fields of `uhd::tx_metadata_t` that the block sets. -/
structure tx_metadata_t (T : Type) where
  start_of_burst : Bool
  end_of_burst : Bool
  has_time_spec : Bool
  time_spec : T
  deriving DecidableEq

/-- One call of `tx_stream->send`: the samples read through the buffer
pointer and the metadata passed along. -/
structure send_call (T : Type) where
  samples : List gr_complex
  md : tx_metadata_t T
  deriving DecidableEq

/-- What a call of `send` gives back to the caller: the number of samples it
reports as sent and the time the call took, in seconds. -/
structure send_result where
  num_sent : Nat
  seconds : ℚ
  deriving DecidableEq

/-- Locals of `transmit_bursts`. The pointer `buff_ptrs[0]` is not a field: it
holds `d_tx_buff.data()`, so a `send` through it reads the storage of
`d_tx_buff` as it is at the time of the call, for as long as the vector keeps
its storage (an assignment that fits the storage writes in place). -/
structure tx_locals (T : Type) where
  tx_md : tx_metadata_t T
  num_samp_pulse : Nat
  zeros : List gr_complex
  deriving DecidableEq

/-- Lines 172-182: the locals before the loop. -/
def bursts_entry (c : Consts D T) (num_samp_pulse : Nat) (start_time : T) : tx_locals T :=
  { tx_md := { start_of_burst := true, end_of_burst := false,
               has_time_spec := c.arith.zero_lt (c.arith.real_secs start_time),
               time_spec := start_time },
    num_samp_pulse := num_samp_pulse,
    zeros := List.replicate (num_samp_pulse / 10) ((0, 0) : gr_complex) }

/-- Lines 187-195, under the mutex: the new buffer length is adopted and a new
annotation is started at the current sample count. -/
def bursts_adopt [DecidableEq D] (c : Consts D T) (s : usrp_radar_impl D T) (l : tx_locals T) :
    usrp_radar_impl D T × tx_locals T :=
  let d_annotation :=
    Pmt.dict_add s.d_annotation (PMT_SAMPLE_START c) (Pmt.from_long (s.d_sample_count : Int))
  let d_meta := Pmt.dict_add s.d_meta (PMT_ANNOTATIONS c) d_annotation
  ({ s with d_annotation := d_annotation, d_meta := d_meta },
   { l with num_samp_pulse := s.d_tx_buff.length })

/-- Lines 185-196: `if (d_armed) { d_armed = false; ... }`. -/
def bursts_claim [DecidableEq D] (c : Consts D T) (s : usrp_radar_impl D T) (l : tx_locals T) :
    usrp_radar_impl D T × tx_locals T :=
  if s.d_armed then bursts_adopt c { s with d_armed := false } l else (s, l)

/-- Lines 198-201: the pulse is sent tagged start-of-burst with the time spec.
The samples are those found behind the buffer pointer when `send` runs. -/
def bursts_send (s : usrp_radar_impl D T) (l : tx_locals T) : tx_locals T × send_call T :=
  let md := { l.tx_md with start_of_burst := true, end_of_burst := false, has_time_spec := true }
  ({ l with tx_md := md }, { samples := s.d_tx_buff.take l.num_samp_pulse, md := md })

/-- Lines 203-206: the short end-of-burst packet of zeros. -/
def bursts_eob (l : tx_locals T) : tx_locals T × send_call T :=
  let md := { l.tx_md with start_of_burst := false, end_of_burst := true, has_time_spec := false }
  ({ l with tx_md := md }, { samples := l.zeros, md := md })

/-- The `double` that line 210 adds to the time spec: `1 / d_prf`. -/
def pulse_period (c : Consts D T) (prf : D) : D := c.arith.div (c.arith.of_long 1) prf

/-- Lines 210-212: `tx_md.time_spec += 1 / d_prf` and the counters advance by
one pulse. -/
def bursts_advance (c : Consts D T) (s : usrp_radar_impl D T) (l : tx_locals T) :
    usrp_radar_impl D T × tx_locals T :=
  ({ s with d_pulse_count := s.d_pulse_count + 1,
            d_sample_count := s.d_sample_count + l.num_samp_pulse },
   { l with tx_md :=
      { l.tx_md with
        time_spec := c.arith.time_add_double l.tx_md.time_spec (pulse_period c s.d_prf) } })

/-- What the environment does around one iteration of the burst loop. -/
structure burst_env (D : Type) where
  /-- PDUs the control thread handles before the `d_armed` test. -/
  before : List (Pmt D)
  /-- PDUs the control thread handles after the pulse was sent and before the
  time spec advances. -/
  during : List (Pmt D)
  /-- What the `send` of the pulse gives back. -/
  pulse_result : send_result
  /-- What the `send` of the end-of-burst packet gives back. -/
  eob_result : send_result

/-- What one iteration of the burst loop did. -/
structure burst_record (D T : Type) where
  pulse : send_call T
  eob : send_call T
  /-- Value of `d_prf` read on line 210. -/
  prf : D
  deriving DecidableEq

/-- One iteration of the loop of `transmit_bursts`. The results of the two
`send` calls are not used by the source. -/
def bursts_iteration [DecidableEq D] (c : Consts D T) (s : usrp_radar_impl D T) (l : tx_locals T)
    (e : burst_env D) : (usrp_radar_impl D T × tx_locals T) × burst_record D T :=
  let s0 := control c s e.before
  let (s1, l1) := bursts_claim c s0 l
  let (l2, pulse) := bursts_send s1 l1
  let (l3, eob) := bursts_eob l2
  let s2 := control c s1 e.during
  (bursts_advance c s2 l3, { pulse := pulse, eob := eob, prf := s2.d_prf })

/-- The loop of `transmit_bursts`, over the iterations it executes. -/
def bursts_loop [DecidableEq D] (c : Consts D T) (s : usrp_radar_impl D T) (l : tx_locals T) :
    List (burst_env D) → (usrp_radar_impl D T × tx_locals T) × List (burst_record D T)
  | [] => ((s, l), [])
  | e :: es =>
    let (sl, r) := bursts_iteration c s l e
    let (fin, rs) := bursts_loop c sl.1 sl.2 es
    (fin, r :: rs)

/-- Member function `transmit_bursts`. -/
def transmit_bursts [DecidableEq D] (c : Consts D T) (s : usrp_radar_impl D T)
    (num_samp_pulse : Nat) (start_time : T) (es : List (burst_env D)) :
    (usrp_radar_impl D T × tx_locals T) × List (burst_record D T) :=
  bursts_loop c s (bursts_entry c num_samp_pulse start_time) es

/-! ## `receive` (lines 260-355) and `run` (lines 74-126) -/

/-- Locals of `receive`. There is one channel, so `buffs` is `buffs[0]`. -/
structure rx_locals (D T : Type) where
  stream_now : Bool
  stream_time : T
  max_num_samps : Nat
  num_samps_received : Nat
  num_samps_buffer : Nat
  buffs0 : List gr_complex
  timeout : D
  deriving DecidableEq

/-- Samples stored from position `idx` of a vector on; the vector keeps its
length, and a sample written outside it (undefined behaviour in the source)
does not show in it. -/
def write_at : List gr_complex → Nat → List gr_complex → List gr_complex
  | [], _, _ => []
  | b :: bs, 0, [] => b :: bs
  | _ :: bs, 0, x :: xs => x :: write_at bs 0 xs
  | b :: bs, i + 1, xs => b :: write_at bs i xs

/-- Lines 279-298: the locals before the loop. -/
def receive_entry (c : Consts D T) (s : usrp_radar_impl D T) (buffs0 : List gr_complex)
    (start_time : T) (max_num_samps : Nat) : rx_locals D T :=
  { stream_now := !c.arith.zero_lt (c.arith.real_secs start_time),
    stream_time :=
      if s.d_burst_mode then c.arith.time_add_double start_time c.BURST_MODE_DELAY
      else start_time,
    max_num_samps := max_num_samps,
    num_samps_received := 0,
    num_samps_buffer := buffs0.length,
    buffs0 := buffs0,
    timeout := c.arith.add c.arith.half (c.arith.real_secs start_time) }

/-- What the environment does around one iteration of the receive loop. -/
structure rx_env (D : Type) where
  /-- Samples that `recv` stores; their number is what `recv` returns. -/
  delivered : List gr_complex
  /-- PDUs the control thread handles before the iteration. -/
  handled : List (Pmt D)

/-- What one iteration of the receive loop did. -/
structure rx_record (D : Type) where
  /-- Index into `buffs[0]` taken on line 303. -/
  index : Nat
  /-- Number of samples asked of `recv` (line 306). -/
  samps_to_receive : Nat
  /-- Number of samples `recv` returned. -/
  num_rx_samps : Nat
  /-- Whether lines 320-321 ran. -/
  delay_applied : Bool
  /-- Value of `d_delay_samps` at the end of the iteration. -/
  delay_left : Nat
  /-- The PDU published on line 330, if any. -/
  emitted : Option (Pmt D)
  /-- Value of `num_samps_received` at the end of the iteration. -/
  cursor : Nat
  /-- Value of `d_meta` at the end of the iteration. -/
  d_meta : Pmt D
  deriving DecidableEq

/-- One iteration of the loop of `receive` (lines 301-347). -/
def receive_iteration [DecidableEq D] (c : Consts D T) (s : usrp_radar_impl D T)
    (l : rx_locals D T) (e : rx_env D) :
    (usrp_radar_impl D T × rx_locals D T) × rx_record D :=
  let s0 := control c s e.handled
  let index := l.num_samps_received
  let samps_to_receive := min (size_t_sub l.num_samps_buffer l.num_samps_received) l.max_num_samps
  let buffs0 := write_at l.buffs0 index e.delivered
  let num_rx_samps := e.delivered.length
  let n1 := size_t_add l.num_samps_received num_rx_samps
  let delay_applied := !l.stream_now && decide (0 < s0.d_delay_samps)
  let n2 := if delay_applied then size_t_sub n1 s0.d_delay_samps else n1
  let s1 := if delay_applied then { s0 with d_delay_samps := 0 } else s0
  let l1 := { l with buffs0 := buffs0, timeout := c.arith.half }
  if n2 = l.num_samps_buffer then
    let pdu := Pmt.pair s1.d_meta (Pmt.c32vector buffs0)
    let s2 := { s1 with d_meta := Pmt.make_dict }
    ((s2, { l1 with num_samps_received := 0 }),
     { index := index, samps_to_receive := samps_to_receive, num_rx_samps := num_rx_samps,
       delay_applied := delay_applied, delay_left := s2.d_delay_samps,
       emitted := some pdu, cursor := 0, d_meta := s2.d_meta })
  else
    ((s1, { l1 with num_samps_received := n2 }),
     { index := index, samps_to_receive := samps_to_receive, num_rx_samps := num_rx_samps,
       delay_applied := delay_applied, delay_left := s1.d_delay_samps,
       emitted := none, cursor := n2, d_meta := s1.d_meta })

/-- The loop of `receive`, over the iterations it executes. -/
def receive_loop [DecidableEq D] (c : Consts D T) (s : usrp_radar_impl D T) (l : rx_locals D T) :
    List (rx_env D) → (usrp_radar_impl D T × rx_locals D T) × List (rx_record D)
  | [] => ((s, l), [])
  | e :: es =>
    let (sl, r) := receive_iteration c s l e
    let (fin, rs) := receive_loop c sl.1 sl.2 es
    (fin, r :: rs)

/-- Member function `receive`. -/
def receive [DecidableEq D] (c : Consts D T) (s : usrp_radar_impl D T) (buffs0 : List gr_complex)
    (start_time : T) (max_num_samps : Nat) (es : List (rx_env D)) :
    (usrp_radar_impl D T × rx_locals D T) × List (rx_record D) :=
  receive_loop c s (receive_entry c s buffs0 start_time max_num_samps) es

/-- Lines 89-94 of `run`: the record length, `round(d_samp_rate / d_prf)`
converted to `size_t` in burst mode, the length of the armed buffer
otherwise. -/
def num_samp_rx (c : Consts D T) (s : usrp_radar_impl D T) : Nat :=
  if s.d_burst_mode then c.arith.round_to_size_t (c.arith.div s.d_samp_rate s.d_prf)
  else s.d_tx_buff.length

/-- The state in which `run` leaves its wait loop and sets up its buffers with
every step defined by the language: a waveform has arrived (line 76), in burst
mode the conversion of line 91 is defined, and the receive buffer is not empty
(line 98 takes its first element). -/
def run_defined (c : Consts D T) (s : usrp_radar_impl D T) : Prop :=
  s.d_tx_buff ≠ [] ∧
  (s.d_burst_mode = true → c.arith.size_t_defined (c.arith.div s.d_samp_rate s.d_prf) = true) ∧
  0 < num_samp_rx c s

/-- Lines 104-107 of `run`: the time the start time is counted from. -/
def run_time_now (c : Consts D T) (s : usrp_radar_impl D T) (device_time : T) : T :=
  if c.arith.ne_zero (c.arith.real_secs s.d_start_time) then device_time
  else c.arith.time_of_double (c.arith.of_long 0)

/-- Receive side of `run`, from the end of the wait for a first waveform on
(lines 88-123): the receive buffer gets the record length and `receive` runs
with it. -/
def run [DecidableEq D] (c : Consts D T) (s : usrp_radar_impl D T) (device_time : T)
    (max_num_samps : Nat) (es : List (rx_env D)) :
    (usrp_radar_impl D T × rx_locals D T) × List (rx_record D) :=
  receive c s (List.replicate (num_samp_rx c s) ((0, 0) : gr_complex))
    (c.arith.time_add (run_time_now c s device_time) s.d_start_time) max_num_samps es

/-- The stream that `recv` delivered over a run: all samples in order. -/
def delivered_stream (es : List (rx_env D)) : List gr_complex :=
  (es.map (fun e => e.delivered)).flatten

/-- The samples of the records a run published, in order. -/
def emitted_records : List (rx_record D) → List (Pmt D)
  | [] => []
  | r :: rs =>
    match r.emitted with
    | some p => p :: emitted_records rs
    | none => emitted_records rs

/-! ## `read_calibration_file` (lines 357-381) -/

/-- One record of the calibration file. -/
structure calibration_entry where
  samp_rate : ℚ
  master_clock_rate : ℚ
  delay : Nat
  deriving DecidableEq

/-- Parsed calibration file: radio model name to list of records. -/
abbrev calibration_json : Type := List (String × List calibration_entry)

/-- What the block asks of the device in `read_calibration_file`. -/
structure usrp_device where
  mboard_name : String
  tx_rate : ℚ
  master_clock_rate : ℚ

/-- The value `json[radio_type]`: the records listed under a model, none when
the model is not in the file. -/
def json_at (json : calibration_json) (radio_type : String) : List calibration_entry :=
  (json.lookup radio_type).getD []

/-- Lines 365-371: the loop over the records with its `break`. -/
def calibration_scan (dev : usrp_device) (d_delay_samps : Nat) : List calibration_entry → Nat
  | [] => d_delay_samps
  | config :: rest =>
    if config.samp_rate = dev.tx_rate ∧ config.master_clock_rate = dev.master_clock_rate then
      config.delay
    else calibration_scan dev d_delay_samps rest

/-- Member function `read_calibration_file`; `file` is `none` when the file
cannot be opened. -/
def read_calibration_file (s : usrp_radar_impl D T) (dev : usrp_device)
    (file : Option calibration_json) : usrp_radar_impl D T :=
  let s0 := { s with d_delay_samps := 0 }
  match file with
  | some json =>
    { s0 with d_delay_samps := calibration_scan dev s0.d_delay_samps (json_at json dev.mboard_name) }
  | none => s0

/-! ## Interleaving of the control thread and the burst transmit thread

The statements of `handle_message` and of the loop of `transmit_bursts`, run
one at a time in an order a schedule gives. The mutex `d_tx_buff_mutex` is held
by the control thread from line 146 to the end of `handle_message`, and by the
transmit thread over lines 187-195 only. -/

/-- Where the control thread stands inside `handle_message`. -/
inductive ctrl_pc where
  | idle : ctrl_pc
  /-- Line 147 done, mutex held. -/
  | assigned : ctrl_pc
  /-- Lines 148-154 done, mutex held. -/
  | padded : ctrl_pc
  deriving DecidableEq

/-- Where the transmit thread stands inside the loop of `transmit_bursts`. -/
inductive tx_pc where
  /-- Before line 185. -/
  | test : tx_pc
  /-- Line 186 done, waiting for the mutex of line 187. -/
  | lock : tx_pc
  /-- Before line 198. -/
  | send : tx_pc
  /-- Before line 203. -/
  | eob : tx_pc
  /-- Before line 210. -/
  | advance : tx_pc
  deriving DecidableEq

/-- The two threads and the members they share. -/
structure machine (D T : Type) where
  blk : usrp_radar_impl D T
  ctrl : ctrl_pc
  tx : tx_locals T
  txpc : tx_pc
  /-- The calls of `send` made so far, oldest first. -/
  sent : List (send_call T)

/-- Which thread runs its next statements. -/
inductive sched (D : Type) where
  /-- The control thread enters `handle_message` and runs lines 131-147. -/
  | ctrl_begin (msg : Pmt D) : sched D
  /-- The control thread runs its next part of `handle_message`. -/
  | ctrl_next : sched D
  /-- The transmit thread runs its next part of the loop body. -/
  | tx_next : sched D

/-- Lines 131-147 of `handle_message`, run by an idle control thread. -/
def ctrl_begin_step [DecidableEq D] (c : Consts D T) (m : machine D T) (msg : Pmt D) :
    machine D T :=
  match m.ctrl, msg with
  | ctrl_pc.idle, Pmt.pair metadata payload =>
    if Pmt.is_pdu msg then
      match hm_parse c m.blk metadata with
      | Outcome.raised s1 => { m with blk := s1 }
      | Outcome.returned s1 =>
        match hm_assign s1 payload with
        | Outcome.raised s2 => { m with blk := s2 }
        | Outcome.returned s2 => { m with blk := s2, ctrl := ctrl_pc.assigned }
    else m
  | _, _ => m

/-- Next part of `handle_message`: lines 148-154, then line 155 and return. -/
def ctrl_next_step (c : Consts D T) (m : machine D T) : machine D T :=
  match m.ctrl with
  | ctrl_pc.idle => m
  | ctrl_pc.assigned => { m with blk := hm_pad c m.blk, ctrl := ctrl_pc.padded }
  | ctrl_pc.padded => { m with blk := hm_arm m.blk, ctrl := ctrl_pc.idle }

/-- Next part of the loop body of `transmit_bursts`. At `lock` the thread
waits while the control thread holds the mutex. -/
def tx_next_step [DecidableEq D] (c : Consts D T) (m : machine D T) : machine D T :=
  match m.txpc with
  | tx_pc.test =>
    if m.blk.d_armed then
      { m with blk := { m.blk with d_armed := false }, txpc := tx_pc.lock }
    else { m with txpc := tx_pc.send }
  | tx_pc.lock =>
    match m.ctrl with
    | ctrl_pc.idle =>
      let sl := bursts_adopt c m.blk m.tx
      { m with blk := sl.1, tx := sl.2, txpc := tx_pc.send }
    | _ => m
  | tx_pc.send =>
    let lc := bursts_send m.blk m.tx
    { m with tx := lc.1, sent := m.sent ++ [lc.2], txpc := tx_pc.eob }
  | tx_pc.eob =>
    let lc := bursts_eob m.tx
    { m with tx := lc.1, sent := m.sent ++ [lc.2], txpc := tx_pc.advance }
  | tx_pc.advance =>
    let sl := bursts_advance c m.blk m.tx
    { m with blk := sl.1, tx := sl.2, txpc := tx_pc.test }

def machine_step [DecidableEq D] (c : Consts D T) (m : machine D T) : sched D → machine D T
  | sched.ctrl_begin msg => ctrl_begin_step c m msg
  | sched.ctrl_next => ctrl_next_step c m
  | sched.tx_next => tx_next_step c m

def machine_run [DecidableEq D] (c : Consts D T) (m : machine D T) (schedule : List (sched D)) :
    machine D T :=
  schedule.foldl (machine_step c) m

/-- The machine when `transmit_bursts` enters its loop. -/
def machine_start (c : Consts D T) (s : usrp_radar_impl D T) (start_time : T) : machine D T :=
  { blk := s, ctrl := ctrl_pc.idle, tx := bursts_entry c s.d_tx_buff.length start_time,
    txpc := tx_pc.test, sent := [] }

/-- The pulses among the calls of `send`: those tagged start-of-burst. -/
def pulses (calls : List (send_call T)) : List (List gr_complex) :=
  (calls.filter (fun call => call.md.start_of_burst)).map (fun call => call.samples)

/-! ## An instance of the arithmetic: IEEE 754 binary64 and the UHD time spec

Used to run the definitions on concrete inputs. A finite `double` is the
rational number it stands for (the two zeros are one value); every operation
rounds its result to nearest, ties to even, with the significand and the
exponent range of binary64, so results of representable operands are
representable.
`time_spec_t` follows `uhd::time_spec_t`: whole seconds and a fraction of a
second held in a `double`. -/

/-- A value of a binary64 `double`. -/
inductive double where
  | fin (x : ℚ) : double
  | pinf : double
  | ninf : double
  | nan : double
  deriving DecidableEq

/-- The power `2 ^ e` for an integer `e`. -/
def two_pow (e : Int) : ℚ :=
  if 0 ≤ e then ((2 ^ e.toNat : Nat) : ℚ) else 1 / ((2 ^ (-e).toNat : Nat) : ℚ)

/-- Number of binary digits of `n`, counted in at most `fuel` steps. -/
def bit_length : Nat → Nat → Nat
  | 0, _ => 0
  | fuel + 1, n => if n = 0 then 0 else bit_length fuel (n / 2) + 1

/-- The integer `e` with `2 ^ e ≤ |x| < 2 ^ (e + 1)`, for `x` other than zero:
the difference of the digit counts of numerator and denominator, or one
less. -/
def binade (x : ℚ) : Int :=
  let d : Int := (bit_length x.num.natAbs x.num.natAbs : Int) - (bit_length x.den x.den : Int)
  if two_pow d ≤ |x| then d else d - 1

/-- Nearest integer, halfway cases to the even one. -/
def round_even (y : ℚ) : Int :=
  let f := Int.floor y
  if y - f < 1 / 2 then f
  else if 1 / 2 < y - f then f + 1
  else if f % 2 = 0 then f else f + 1

/-- Rounding of a real result to binary64: 53 significant bits, smallest
exponent `-1074`, overflow to an infinity from `2 ^ 1024` on. -/
def double_round (x : ℚ) : double :=
  if x = 0 then double.fin 0
  else
    let e := max (binade x - 52) (-1074)
    let y := (round_even (x / two_pow e) : ℚ) * two_pow e
    if two_pow 1024 ≤ |y| then (if 0 < x then double.pinf else double.ninf)
    else double.fin y

def double_add : double → double → double
  | double.fin a, double.fin b => double_round (a + b)
  | double.nan, _ => double.nan
  | _, double.nan => double.nan
  | double.pinf, double.ninf => double.nan
  | double.ninf, double.pinf => double.nan
  | double.pinf, _ => double.pinf
  | _, double.pinf => double.pinf
  | double.ninf, _ => double.ninf
  | _, double.ninf => double.ninf

/-- An infinity of the sign of `a` times the sign `positive`; NaN for zero. -/
def double_inf_of_sign (a : ℚ) (positive : Bool) : double :=
  if a = 0 then double.nan
  else if decide (0 < a) = positive then double.pinf else double.ninf

def double_mul : double → double → double
  | double.fin a, double.fin b => double_round (a * b)
  | double.nan, _ => double.nan
  | _, double.nan => double.nan
  | double.fin a, double.pinf => double_inf_of_sign a true
  | double.fin a, double.ninf => double_inf_of_sign a false
  | double.pinf, double.fin b => double_inf_of_sign b true
  | double.ninf, double.fin b => double_inf_of_sign b false
  | double.pinf, double.pinf => double.pinf
  | double.ninf, double.ninf => double.pinf
  | double.pinf, double.ninf => double.ninf
  | double.ninf, double.pinf => double.ninf

def double_div : double → double → double
  | double.fin a, double.fin b =>
    if b = 0 then double_inf_of_sign a true else double_round (a / b)
  | double.nan, _ => double.nan
  | _, double.nan => double.nan
  | double.fin _, double.pinf => double.fin 0
  | double.fin _, double.ninf => double.fin 0
  | double.pinf, double.fin b => if 0 ≤ b then double.pinf else double.ninf
  | double.ninf, double.fin b => if 0 ≤ b then double.ninf else double.pinf
  | double.pinf, double.pinf => double.nan
  | double.pinf, double.ninf => double.nan
  | double.ninf, double.pinf => double.nan
  | double.ninf, double.ninf => double.nan

/-- The test `x > 0`. -/
def double_zero_lt : double → Bool
  | double.fin x => decide (0 < x)
  | double.pinf => true
  | _ => false

/-- The test `x < 0`. -/
def double_lt_zero : double → Bool
  | double.fin x => decide (x < 0)
  | double.ninf => true
  | _ => false

/-- The test `x != 0`. -/
def double_ne_zero : double → Bool
  | double.fin x => decide (x ≠ 0)
  | _ => true

/-- The C function `round` on a finite number: nearest integer, halfway cases
away from zero. -/
def c_round (x : ℚ) : Int :=
  if 0 ≤ x then Int.floor (x + 1 / 2) else -Int.floor (-x + 1 / 2)

/-- Whether `round(x)` converts to `size_t`: it is a number from `0` to
`2 ^ 64 - 1`. -/
def double_size_t_defined : double → Bool
  | double.fin x => decide (0 ≤ c_round x ∧ c_round x < (SIZE_T_MOD : Int))
  | _ => false

/-- The value `size_t(round(x))` where it is defined (elsewhere zero). -/
def double_round_to_size_t : double → Nat
  | double.fin x => if double_size_t_defined (double.fin x) then (c_round x).toNat else 0
  | _ => 0

/-- Conversion `int(x)` of a `double`: truncation toward zero. -/
def double_to_int : double → Int
  | double.fin x => if 0 ≤ x then Int.floor x else -Int.floor (-x)
  | _ => 0

/-- The members of `uhd::time_spec_t`. -/
structure time_spec_t where
  full_secs : Int
  frac_secs : double
  deriving DecidableEq

/-- The macro `time_spec_init(full, frac)` of UHD: the whole part of `frac`
moves to the whole seconds and a negative fraction borrows a second. -/
def time_spec_init (full : Int) (frac : double) : time_spec_t :=
  let frac_int := double_to_int frac
  let frac_secs := double_add frac (double.fin (-(frac_int : ℚ)))
  if double_lt_zero frac_secs then
    { full_secs := full + frac_int - 1, frac_secs := double_add frac_secs (double.fin 1) }
  else { full_secs := full + frac_int, frac_secs := frac_secs }

/-- Operator `+` of two time specs. -/
def time_spec_add (a b : time_spec_t) : time_spec_t :=
  time_spec_init (a.full_secs + b.full_secs) (double_add a.frac_secs b.frac_secs)

/-- The binary64 arithmetic with the UHD time spec. In `t += x` the `double`
is converted to a time spec and added; for an `x` that is not negative this is
also what splitting `x` into whole and fractional seconds and adding both
parts gives. -/
def binary64 : Arith double time_spec_t :=
  { of_long := fun n => double_round (n : ℚ),
    of_uint64 := fun n => double_round (n : ℚ),
    half := double.fin (1 / 2),
    add := double_add,
    mul := double_mul,
    div := double_div,
    zero_lt := double_zero_lt,
    ne_zero := double_ne_zero,
    round_to_size_t := double_round_to_size_t,
    size_t_defined := double_size_t_defined,
    time_of_double := fun x => time_spec_init 0 x,
    real_secs := fun t => double_add (double_round (t.full_secs : ℚ)) t.frac_secs,
    time_add := time_spec_add,
    time_add_double := fun t x => time_spec_add t (time_spec_init 0 x) }

/-! ## Concrete data used to run the definitions -/

/-- The binary64 arithmetic, key names, and a burst-mode delay of two
microseconds (the `double` nearest to `2e-6`). -/
def ex_consts : Consts double time_spec_t :=
  { arith := binary64,
    annotations := "annotations", captures := "captures", prf := "radar:prf",
    sample_start := "core:sample_start", frequency := "core:frequency",
    BURST_MODE_DELAY := double_round (2 / 1000000) }

/-- The time spec made from the `double` nearest to `x` seconds. -/
def ex_time (x : ℚ) : time_spec_t := binary64.time_of_double (double_round x)

/-- A block just constructed, with a sample rate of 1 MHz, in the mode
`burst`, with calibration delay `delay` and start time `start`. -/
def ex_block (burst : Bool) (delay : Nat) (start : ℚ) : usrp_radar_impl double time_spec_t :=
  constructor ex_consts (double.fin 1000000) (ex_time start) burst false delay

/-- Metadata of a PDU whose annotations carry the PRF `f`. -/
def ex_prf_meta (f : Int) : Pmt double :=
  Pmt.dict_add Pmt.make_dict (PMT_ANNOTATIONS ex_consts)
    (Pmt.dict_add Pmt.make_dict (PMT_PRF ex_consts) (Pmt.integer f))

/-- A waveform of four samples. -/
def ex_w0 : List gr_complex := [(1, 0), (2, 0), (3, 0), (4, 0)]

/-- A waveform of six samples. -/
def ex_w1 : List gr_complex := [(5, 0), (6, 0), (7, 0), (8, 0), (9, 0), (10, 0)]

/-- A PDU with PRF 1000 Hz and the four-sample waveform. -/
def ex_msg0 : Pmt double := Pmt.pair (ex_prf_meta 1000) (Pmt.c32vector ex_w0)

/-- A PDU with PRF 1000 Hz and the six-sample waveform. -/
def ex_msg1 : Pmt double := Pmt.pair (ex_prf_meta 1000) (Pmt.c32vector ex_w1)

/-- A PDU with empty metadata and a waveform of 500 samples. -/
def ex_msg_plain : Pmt double :=
  Pmt.pair Pmt.make_dict (Pmt.c32vector (List.replicate 500 ((1, 1) : gr_complex)))

/-- A PDU whose annotations entry is the empty dictionary, with the
four-sample waveform. -/
def ex_msg_empty_annotations : Pmt double :=
  Pmt.pair (Pmt.dict_add Pmt.make_dict (PMT_ANNOTATIONS ex_consts) Pmt.make_dict)
    (Pmt.c32vector ex_w0)

/-- A PDU whose annotations carry the PRF `2e6 / 11` Hz as a real (the
`double` nearest to it), with the four-sample waveform. -/
def ex_msg_real_prf : Pmt double :=
  Pmt.pair
    (Pmt.dict_add Pmt.make_dict (PMT_ANNOTATIONS ex_consts)
      (Pmt.dict_add Pmt.make_dict (PMT_PRF ex_consts) (Pmt.real (double_round (2000000 / 11)))))
    (Pmt.c32vector ex_w0)

/-- An environment of the burst loop in which nothing else happens and the
two sends report `a` and `b` samples after `t` seconds. -/
def ex_burst_env (a b : Nat) (t : ℚ) : burst_env double :=
  { before := [], during := [], pulse_result := { num_sent := a, seconds := t },
    eob_result := { num_sent := b, seconds := t } }

/-- An environment of the receive loop in which `recv` delivers `xs`. -/
def ex_rx_env (xs : List gr_complex) : rx_env double := { delivered := xs, handled := [] }

/-- An environment of the receive loop in which the control thread first
handles `msgs` and `recv` then delivers `xs`. -/
def ex_rx_env_after (msgs : List (Pmt double)) (xs : List gr_complex) : rx_env double :=
  { delivered := xs, handled := msgs }

/-- A PDU with empty metadata and a waveform of two samples. -/
def ex_msg_two : Pmt double := Pmt.pair Pmt.make_dict (Pmt.c32vector [(1, 0), (2, 0)])

/-- Sample number `n` of a received stream. -/
def ex_samp (n : Int) : gr_complex := (n, 0)

/-- A run of `receive` with record length 2, calibration delay 1 and a
time-anchored start, in which `recv` delivers seven samples in four calls. -/
def ex_rx_run :
    (usrp_radar_impl double time_spec_t × rx_locals double time_spec_t) × List (rx_record double) :=
  receive ex_consts (ex_block true 1 1) (List.replicate 2 ((0, 0) : gr_complex)) (ex_time 1) 364
    [ex_rx_env [ex_samp 0, ex_samp 1], ex_rx_env [ex_samp 2],
     ex_rx_env [ex_samp 3, ex_samp 4], ex_rx_env [ex_samp 5, ex_samp 6]]

/-- The block after the control thread has armed the four-sample burst
waveform with PRF 1000 Hz: `d_tx_buff` holds two zeros and the four
samples. -/
def ex_armed : usrp_radar_impl double time_spec_t :=
  (handle_message ex_consts (ex_block false 0 0) ex_msg0).state

/-- The block after the control thread has armed the four-sample burst
waveform with PRF `2e6 / 11` Hz. -/
def ex_armed_real_prf : usrp_radar_impl double time_spec_t :=
  (handle_message ex_consts (ex_block false 0 0) ex_msg_real_prf).state

/-- Environments of a run of `run` in which a six-sample burst waveform with
PRF 1000 Hz is armed after the first record. -/
def ex_run_envs : List (rx_env double) :=
  [ex_rx_env [ex_samp 0, ex_samp 1, ex_samp 2, ex_samp 3, ex_samp 4, ex_samp 5],
   ex_rx_env_after [ex_msg1] [ex_samp 6, ex_samp 7, ex_samp 8, ex_samp 9],
   ex_rx_env [ex_samp 10, ex_samp 11]]

/-- A run of `run` in burst mode at 1 MHz with PRF `2e6 / 11` Hz, where
`d_samp_rate / d_prf` is `5.5` and the record length is 6. -/
def ex_run :
    (usrp_radar_impl double time_spec_t × rx_locals double time_spec_t) × List (rx_record double) :=
  run ex_consts ex_armed_real_prf (ex_time 0) 364 ex_run_envs

/-- Ten iterations of the burst loop whose `send` calls report different
counts and durations. -/
def ex_burst_envs : List (burst_env double) :=
  [ex_burst_env 6 0 (1 / 10), ex_burst_env 0 0 3, ex_burst_env 2 0 0, ex_burst_env 6 0 0,
   ex_burst_env 6 0 0, ex_burst_env 6 0 0, ex_burst_env 6 0 0, ex_burst_env 6 0 0,
   ex_burst_env 6 0 0, ex_burst_env 6 0 0]

/-- A schedule of the two threads. The transmit thread adopts the armed buffer
and sends a first pulse, then passes the `d_armed` test (nothing armed). The
control thread enters `handle_message` with the six-sample waveform and runs
up to line 147. The transmit thread sends its second pulse. The control thread
finishes `handle_message`; the transmit thread ends its iteration and runs a
third one. -/
def ex_schedule : List (sched double) :=
  [sched.tx_next, sched.tx_next, sched.tx_next, sched.tx_next, sched.tx_next,
   sched.tx_next,
   sched.ctrl_begin ex_msg1,
   sched.tx_next,
   sched.ctrl_next, sched.ctrl_next,
   sched.tx_next, sched.tx_next,
   sched.tx_next, sched.tx_next, sched.tx_next]

/-- A calibration file with two radio models. -/
def ex_json : calibration_json :=
  [("x310", [{ samp_rate := 1000000, master_clock_rate := 200000000, delay := 50 },
             { samp_rate := 2000000, master_clock_rate := 200000000, delay := 77 },
             { samp_rate := 2000000, master_clock_rate := 200000000, delay := 99 }]),
   ("b210", [])]

/-- A device of model x310 at 2 MHz. -/
def ex_device : usrp_device :=
  { mboard_name := "x310", tx_rate := 2000000, master_clock_rate := 200000000 }

/-! # Theorems

## Calibration lookup -/

/-- C9: `read_calibration_file` leaves zero when the file is absent, when the
radio model has no entries, and when no entry of the model matches the device's
sample rate and master clock rate; otherwise it leaves the delay of the first
matching entry. The function is total: it returns in all these cases. -/
theorem C9_read_calibration_file_first_match (s : usrp_radar_impl D T) (dev : usrp_device) :
    (read_calibration_file s dev none).d_delay_samps = 0 ∧
    (∀ json : calibration_json, json_at json dev.mboard_name = [] →
      (read_calibration_file s dev (some json)).d_delay_samps = 0) ∧
    (∀ json : calibration_json,
      (∀ e ∈ json_at json dev.mboard_name,
        ¬ (e.samp_rate = dev.tx_rate ∧ e.master_clock_rate = dev.master_clock_rate)) →
      (read_calibration_file s dev (some json)).d_delay_samps = 0) ∧
    (∀ (json : calibration_json) (before after : List calibration_entry) (e : calibration_entry),
      json_at json dev.mboard_name = before ++ e :: after →
      (∀ x ∈ before,
        ¬ (x.samp_rate = dev.tx_rate ∧ x.master_clock_rate = dev.master_clock_rate)) →
      e.samp_rate = dev.tx_rate → e.master_clock_rate = dev.master_clock_rate →
      (read_calibration_file s dev (some json)).d_delay_samps = e.delay) := by
  have hscan : ∀ (l : List calibration_entry),
      (∀ e ∈ l, ¬ (e.samp_rate = dev.tx_rate ∧ e.master_clock_rate = dev.master_clock_rate)) →
      ∀ rest, calibration_scan dev 0 (l ++ rest) = calibration_scan dev 0 rest := by
    intro l
    induction l with
    | nil => intro _ rest; rfl
    | cons x xs ih =>
      intro h rest
      have hx := h x (List.mem_cons_self x xs)
      have hxs := ih (fun e he => h e (List.mem_cons_of_mem x he)) rest
      simp only [List.cons_append, calibration_scan, if_neg hx]
      exact hxs
  refine ⟨rfl, ?_, ?_, ?_⟩
  · intro json h
    simp [read_calibration_file, h, calibration_scan]
  · intro json h
    have := hscan _ h []
    simp only [List.append_nil] at this
    simp [read_calibration_file, this, calibration_scan]
  · intro json before after e hj hb h1 h2
    have := hscan _ hb (e :: after)
    simp [read_calibration_file, hj, this, calibration_scan, h1, h2]

/-- Witness of C9 on a file with two models: the device matches the second and
third entries of its model and gets the delay of the second; a device of a
model without entries gets zero. -/
theorem C9_read_calibration_file_first_match_witness :
    (read_calibration_file (ex_block true 5 1) ex_device (some ex_json)).d_delay_samps = 77 ∧
    (read_calibration_file (ex_block true 5 1) { ex_device with mboard_name := "b210" }
      (some ex_json)).d_delay_samps = 0 :=
  ⟨(C9_read_calibration_file_first_match (ex_block true 5 1) ex_device).2.2.2 ex_json
      [{ samp_rate := 1000000, master_clock_rate := 200000000, delay := 50 }]
      [{ samp_rate := 2000000, master_clock_rate := 200000000, delay := 99 }]
      { samp_rate := 2000000, master_clock_rate := 200000000, delay := 77 }
      rfl (by decide!) (by decide!) (by decide!),
   (C9_read_calibration_file_first_match (ex_block true 5 1)
      { ex_device with mboard_name := "b210" }).2.1 ex_json rfl⟩

/-! ## Facts that need no equality test on `double` -/

theorem hm_assign_returned (s s' : usrp_radar_impl D T) (payload : Pmt D)
    (h : hm_assign s payload = Outcome.returned s') :
    ∃ v, payload = Pmt.c32vector v ∧ s' = { s with d_tx_buff := v } := by
  cases payload <;> simp [hm_assign, Pmt.c32vector_elements] at h
  case c32vector v => exact ⟨v, rfl, h.symm⟩

theorem hm_assign_delay (s : usrp_radar_impl D T) (payload : Pmt D) :
    (hm_assign s payload).state.d_delay_samps = s.d_delay_samps := by
  unfold hm_assign
  split <;> rfl

theorem hm_pad_delay (c : Consts D T) (s : usrp_radar_impl D T) :
    (hm_pad c s).d_delay_samps = s.d_delay_samps := by
  unfold hm_pad
  split <;> rfl

theorem write_at_length (buf : List gr_complex) :
    ∀ (idx : Nat) (xs : List gr_complex), (write_at buf idx xs).length = buf.length := by
  induction buf with
  | nil => intro idx xs; simp [write_at]
  | cons b bs ih =>
    intro idx xs
    cases idx with
    | zero =>
      cases xs with
      | nil => simp [write_at]
      | cons x xs => simp [write_at, ih]
    | succ i => simp [write_at, ih]

variable [DecidableEq D]

/-! ## Arming a waveform -/

theorem hm_parse_samp_rate (c : Consts D T) (s s' : usrp_radar_impl D T) (metadata : Pmt D)
    (h : hm_parse c s metadata = Outcome.returned s') : s'.d_samp_rate = s.d_samp_rate := by
  unfold hm_parse at h
  split at h
  · cases h
  · dsimp only at h
    split at h
    · cases h
    · rename_i s2 hs2
      cases h
      split at hs2
      · unfold hm_prf at hs2
        dsimp only at hs2
        split at hs2
        · cases hs2; rfl
        · split at hs2
          · cases hs2
          · cases hs2; rfl
      · cases hs2; rfl

theorem handle_message_pdu (c : Consts D T) (s : usrp_radar_impl D T) (metadata payload : Pmt D)
    (hpdu : Pmt.is_pdu (Pmt.pair metadata payload) = true) :
    handle_message c s (Pmt.pair metadata payload) =
      match hm_parse c s metadata with
      | Outcome.raised s1 => Outcome.raised s1
      | Outcome.returned s1 =>
        match hm_assign s1 payload with
        | Outcome.raised s2 => Outcome.raised s2
        | Outcome.returned s2 => Outcome.returned (hm_arm (hm_pad c s2)) := by
  simp only [handle_message, hpdu, if_true]

/-- Once `handle_message` has handled a PDU carrying the samples `w` to the
end and left the block in burst mode, `d_tx_buff` holds
`size_t(round(d_samp_rate * BURST_MODE_DELAY))` zero samples followed by `w`,
and `d_armed` is set. (While `handle_message` runs, between lines 147 and 153,
`d_tx_buff` holds `w` alone.) -/
theorem handle_message_burst_buffer (c : Consts D T) (s s' : usrp_radar_impl D T)
    (metadata : Pmt D) (w : List gr_complex)
    (hpdu : Pmt.is_pdu (Pmt.pair metadata (Pmt.c32vector w)) = true)
    (h : handle_message c s (Pmt.pair metadata (Pmt.c32vector w)) = Outcome.returned s')
    (hburst : s'.d_burst_mode = true) :
    s'.d_tx_buff =
      List.replicate (c.arith.round_to_size_t (c.arith.mul s.d_samp_rate c.BURST_MODE_DELAY))
        ((0, 0) : gr_complex) ++ w ∧
    s'.d_armed = true := by
  rw [handle_message_pdu c s _ _ hpdu] at h
  split at h
  · cases h
  · rename_i s1 hs1
    have hrate := hm_parse_samp_rate c s s1 metadata hs1
    split at h
    · cases h
    · rename_i s2 hs2
      obtain ⟨v, hv, rfl⟩ := hm_assign_returned s1 s2 _ hs2
      cases hv
      cases h
      have hb : s1.d_burst_mode = true := by
        by_cases hb : s1.d_burst_mode = true
        · exact hb
        · simp [hm_arm, hm_pad, hb] at hburst
      simp [hm_arm, hm_pad, hb, start_zeros_len, hrate]

/-! ## Pulse cadence of the burst loop -/

theorem bursts_iteration_time (c : Consts D T) (s : usrp_radar_impl D T) (l : tx_locals T)
    (e : burst_env D) :
    (bursts_iteration c s l e).2.pulse.md.time_spec = l.tx_md.time_spec ∧
    (bursts_iteration c s l e).2.pulse.md.has_time_spec = true ∧
    (bursts_iteration c s l e).2.pulse.md.start_of_burst = true ∧
    (bursts_iteration c s l e).1.2.tx_md.time_spec =
      c.arith.time_add_double l.tx_md.time_spec
        (pulse_period c (bursts_iteration c s l e).2.prf) := by
  unfold bursts_iteration bursts_claim
  by_cases h : (control c s e.before).d_armed = true <;>
    simp [h, bursts_adopt, bursts_send, bursts_eob, bursts_advance]

theorem bursts_loop_length (c : Consts D T) (es : List (burst_env D)) :
    ∀ (s : usrp_radar_impl D T) (l : tx_locals T),
      (bursts_loop c s l es).2.length = es.length := by
  induction es with
  | nil => intro s l; rfl
  | cons e es ih =>
    intro s l
    simp only [bursts_loop, List.length_cons]
    rw [ih]

theorem bursts_loop_head (c : Consts D T) (s : usrp_radar_impl D T) (l : tx_locals T)
    (es : List (burst_env D)) (a : burst_record D T)
    (h : (bursts_loop c s l es).2.head? = some a) :
    a.pulse.md.time_spec = l.tx_md.time_spec ∧ a.pulse.md.has_time_spec = true ∧
      a.pulse.md.start_of_burst = true := by
  cases es with
  | nil => simp [bursts_loop] at h
  | cons e es =>
    simp only [bursts_loop, List.head?_cons, Option.some.injEq] at h
    subst h
    have := bursts_iteration_time c s l e
    exact ⟨this.1, this.2.1, this.2.2.1⟩

theorem bursts_loop_step (c : Consts D T) (es : List (burst_env D)) :
    ∀ (s : usrp_radar_impl D T) (l : tx_locals T) (n : Nat) (a b : burst_record D T),
      (bursts_loop c s l es).2[n]? = some a → (bursts_loop c s l es).2[n + 1]? = some b →
      b.pulse.md.time_spec = c.arith.time_add_double a.pulse.md.time_spec (pulse_period c a.prf) := by
  induction es with
  | nil => intro s l n a b h; simp [bursts_loop] at h
  | cons e es ih =>
    intro s l n a b ha hb
    simp only [bursts_loop] at ha hb
    cases n with
    | zero =>
      simp only [List.getElem?_cons_zero, Option.some.injEq] at ha
      simp only [List.getElem?_cons_succ] at hb
      have hb0 : (bursts_loop c (bursts_iteration c s l e).1.1 (bursts_iteration c s l e).1.2
          es).2.head? = some b := by
        rw [List.head?_eq_getElem?]; exact hb
      have h1 := (bursts_loop_head c _ _ es b hb0).1
      have h2 := bursts_iteration_time c s l e
      subst ha
      rw [h1, h2.2.2.2, h2.1]
    | succ n =>
      simp only [List.getElem?_cons_succ] at ha hb
      exact ih _ _ n a b ha hb

/-- C1, counterexample: binary64 arithmetic, PRF 1000 Hz throughout, start
time 0, ten pulses. Pulse 1 is tagged at the `double` nearest to 1 ms, which is
`1152921504606847 / 2 ^ 60` seconds and not `1 / 1000`. Pulse 9 is tagged at
`1297036692682703 / 2 ^ 57` seconds: that is neither `9 / 1000` nor the start
time plus the `double` `9 / 1000.0`, which is `5188146770730811 / 2 ^ 59`
seconds. -/
theorem C1_tag_is_not_start_plus_k_over_f :
    (∀ r ∈ (transmit_bursts ex_consts ex_armed 6 (ex_time 0) ex_burst_envs).2,
      r.prf = double.fin 1000) ∧
    ((transmit_bursts ex_consts ex_armed 6 (ex_time 0) ex_burst_envs).2.map
      (fun r => r.pulse.md.time_spec))[1]? =
      some { full_secs := 0, frac_secs := double.fin (1152921504606847 / 1152921504606846976) } ∧
    ((transmit_bursts ex_consts ex_armed 6 (ex_time 0) ex_burst_envs).2.map
      (fun r => r.pulse.md.time_spec))[9]? =
      some { full_secs := 0, frac_secs := double.fin (1297036692682703 / 144115188075855872) } ∧
    binary64.time_add_double (ex_time 0) (binary64.div (binary64.of_long 9) (double.fin 1000)) =
      { full_secs := 0, frac_secs := double.fin (5188146770730811 / 576460752303423488) } ∧
    (1297036692682703 / 144115188075855872 : ℚ) ≠ 5188146770730811 / 576460752303423488 ∧
    (1297036692682703 / 144115188075855872 : ℚ) ≠ 9 / 1000 ∧
    (1152921504606847 / 1152921504606846976 : ℚ) ≠ 1 / 1000 := by
  decide!

/-- C1, amended: in `transmit_bursts`, whatever the environment does (the
results and durations of the `send` calls, the PDUs handled meanwhile), with
the PRF read on line 210 positive in every iteration: the first pulse carries
the start time as its time tag, the tag of pulse `n + 1` is the tag of pulse
`n` advanced by the `double` `1 / d_prf` with the `+=` of the time spec, and
with a constant PRF `f` the tag of pulse `k` is the start time advanced `k`
times by the `double` `1 / f`. -/
theorem C1_burst_time_tags (c : Consts D T) (s : usrp_radar_impl D T) (num_samp_pulse : Nat)
    (start_time : T) (es : List (burst_env D))
    (_hprf : ∀ r ∈ (transmit_bursts c s num_samp_pulse start_time es).2,
      c.arith.zero_lt r.prf = true) :
    (transmit_bursts c s num_samp_pulse start_time es).2.length = es.length ∧
    (∀ a, (transmit_bursts c s num_samp_pulse start_time es).2[0]? = some a →
      a.pulse.md.time_spec = start_time ∧ a.pulse.md.has_time_spec = true) ∧
    (∀ n a b, (transmit_bursts c s num_samp_pulse start_time es).2[n]? = some a →
      (transmit_bursts c s num_samp_pulse start_time es).2[n + 1]? = some b →
      b.pulse.md.time_spec =
        c.arith.time_add_double a.pulse.md.time_spec (c.arith.div (c.arith.of_long 1) a.prf)) ∧
    (∀ f : D, (∀ r ∈ (transmit_bursts c s num_samp_pulse start_time es).2, r.prf = f) →
      ∀ (k : Nat) (a : burst_record D T),
        (transmit_bursts c s num_samp_pulse start_time es).2[k]? = some a →
        a.pulse.md.time_spec =
          Nat.iterate (fun t => c.arith.time_add_double t (c.arith.div (c.arith.of_long 1) f))
            k start_time) := by
  have hhead : ∀ a, (transmit_bursts c s num_samp_pulse start_time es).2[0]? = some a →
      a.pulse.md.time_spec = start_time ∧ a.pulse.md.has_time_spec = true := by
    intro a ha
    have h0 : (bursts_loop c s (bursts_entry c num_samp_pulse start_time) es).2.head? =
        some a := by
      rw [List.head?_eq_getElem?]; exact ha
    have := bursts_loop_head c s _ es a h0
    exact ⟨this.1, this.2.1⟩
  refine ⟨bursts_loop_length c es s _, hhead, bursts_loop_step c es s _, ?_⟩
  intro f hf k
  induction k with
  | zero =>
    intro a ha
    rw [(hhead a ha).1]; rfl
  | succ k ih =>
    intro a ha
    have hlt : k < (transmit_bursts c s num_samp_pulse start_time es).2.length := by
      have := (List.getElem?_eq_some_iff.mp ha).1
      omega
    have hk : (transmit_bursts c s num_samp_pulse start_time es).2[k]? =
        some ((transmit_bursts c s num_samp_pulse start_time es).2[k]) :=
      List.getElem?_eq_getElem hlt
    have hstep := bursts_loop_step c es s _ k _ a hk ha
    have hprev := ih _ hk
    have hfk := hf _ (List.getElem_mem hlt)
    rw [hstep, hprev, hfk, Function.iterate_succ_apply']
    rfl

/-- Witness of C1 (amended): ten pulses at a constant PRF of 1000 Hz from
start time 0 in binary64 arithmetic, with send calls that report different
counts and durations; pulse 9 carries the start time advanced nine times by
the `double` `1 / 1000.0`. -/
theorem C1_burst_time_tags_witness :
    ∃ a, (transmit_bursts ex_consts ex_armed 6 (ex_time 0) ex_burst_envs).2[9]? = some a ∧
      a.pulse.md.time_spec =
        Nat.iterate (fun t => binary64.time_add_double t
          (binary64.div (binary64.of_long 1) (double.fin 1000))) 9 (ex_time 0) := by
  have h := C1_burst_time_tags ex_consts ex_armed 6 (ex_time 0) ex_burst_envs (by decide!)
  have hlen : 9 < (transmit_bursts ex_consts ex_armed 6 (ex_time 0) ex_burst_envs).2.length := by
    rw [h.1]; decide
  exact ⟨_, List.getElem?_eq_getElem hlen,
    h.2.2.2 (double.fin 1000) (by decide!) 9 _ (List.getElem?_eq_getElem hlen)⟩

/-! ## The receive loop: calibration delay -/

theorem hm_parse_delay (c : Consts D T) (s : usrp_radar_impl D T) (metadata : Pmt D) :
    (hm_parse c s metadata).state.d_delay_samps = s.d_delay_samps := by
  unfold hm_parse
  split
  · rfl
  · dsimp only
    split
    · rfl
    · rename_i s2 hs2
      simp only [Outcome.state]
      split at hs2
      · unfold hm_prf at hs2
        dsimp only at hs2
        split at hs2
        · cases hs2; rfl
        · split at hs2
          · cases hs2
          · cases hs2; rfl
      · cases hs2; rfl

theorem handle_message_delay (c : Consts D T) (s : usrp_radar_impl D T) (msg : Pmt D) :
    (handle_message c s msg).state.d_delay_samps = s.d_delay_samps := by
  unfold handle_message
  split
  · rename_i metadata payload
    split
    · have h1 := hm_parse_delay c s metadata
      split
      · rename_i s1 hs1
        rw [hs1] at h1; exact h1
      · rename_i s1 hs1
        rw [hs1] at h1
        have h2 := hm_assign_delay s1 payload
        split
        · rename_i s2 hs2
          rw [hs2] at h2
          exact h2.trans h1
        · rename_i s2 hs2
          rw [hs2] at h2
          simp only [Outcome.state] at h1 h2 ⊢
          simp only [hm_arm, hm_pad_delay, h2, h1]
    · rfl
  · rfl

theorem control_delay (c : Consts D T) (msgs : List (Pmt D)) :
    ∀ s : usrp_radar_impl D T, (control c s msgs).d_delay_samps = s.d_delay_samps := by
  induction msgs with
  | nil => intro s; rfl
  | cons m ms ih =>
    intro s
    simp only [control, List.foldl_cons]
    exact (ih _).trans (handle_message_delay c s m)

/-- What one iteration of the receive loop leaves behind. -/
theorem receive_iteration_facts (c : Consts D T) (s : usrp_radar_impl D T) (l : rx_locals D T) (e : rx_env D) :
    (receive_iteration c s l e).1.2.num_samps_buffer = l.num_samps_buffer ∧
    (receive_iteration c s l e).1.2.stream_now = l.stream_now ∧
    (receive_iteration c s l e).1.2.buffs0.length = l.buffs0.length ∧
    (receive_iteration c s l e).1.2.num_samps_received = (receive_iteration c s l e).2.cursor ∧
    (receive_iteration c s l e).1.1.d_delay_samps = (receive_iteration c s l e).2.delay_left ∧
    (receive_iteration c s l e).1.1.d_meta = (receive_iteration c s l e).2.d_meta ∧
    (receive_iteration c s l e).2.index = l.num_samps_received ∧
    (receive_iteration c s l e).2.num_rx_samps = e.delivered.length ∧
    (receive_iteration c s l e).2.samps_to_receive =
      min (size_t_sub l.num_samps_buffer l.num_samps_received) l.max_num_samps ∧
    (receive_iteration c s l e).2.delay_applied =
      (!l.stream_now && decide (0 < s.d_delay_samps)) ∧
    ((receive_iteration c s l e).2.delay_applied = true →
      (receive_iteration c s l e).2.delay_left = 0) ∧
    ((receive_iteration c s l e).2.delay_applied = false →
      (receive_iteration c s l e).2.delay_left = s.d_delay_samps ∧
      (receive_iteration c s l e).2.cursor =
        if size_t_add l.num_samps_received e.delivered.length = l.num_samps_buffer then 0
        else size_t_add l.num_samps_received e.delivered.length) := by
  have hd := control_delay c e.handled s
  unfold receive_iteration
  dsimp only
  rw [hd]
  split_ifs <;> simp_all [write_at_length, Pmt.make_dict]

theorem receive_loop_cons (c : Consts D T) (s : usrp_radar_impl D T) (l : rx_locals D T) (e : rx_env D)
    (es : List (rx_env D)) :
    (receive_loop c s l (e :: es)).2 =
      (receive_iteration c s l e).2 ::
        (receive_loop c (receive_iteration c s l e).1.1 (receive_iteration c s l e).1.2 es).2 := by
  simp only [receive_loop]

/-- Once the stored delay is zero, or when streaming started at once, no
iteration applies a delay and the cursor only moves by what was received. -/
theorem receive_loop_no_delay (c : Consts D T) (es : List (rx_env D)) :
    ∀ (s : usrp_radar_impl D T) (l : rx_locals D T), (s.d_delay_samps = 0 ∨ l.stream_now = true) →
      ∀ r ∈ (receive_loop c s l es).2,
        r.delay_applied = false ∧ r.delay_left = s.d_delay_samps ∧
        r.cursor = if size_t_add r.index r.num_rx_samps = l.num_samps_buffer then 0
          else size_t_add r.index r.num_rx_samps := by
  induction es with
  | nil => intro s l _ r hr; simp [receive_loop] at hr
  | cons e es ih =>
    intro s l h r hr
    rw [receive_loop_cons] at hr
    obtain ⟨hN, hnow, -, -, hdl, -, hidx, hnum, -, happ, -, hnot⟩ :=
      receive_iteration_facts c s l e
    have hfalse : (receive_iteration c s l e).2.delay_applied = false := by
      rw [happ]
      rcases h with h | h
      · simp [h]
      · simp [h]
    obtain ⟨hleft, hcur⟩ := hnot hfalse
    rcases List.mem_cons.mp hr with rfl | hr'
    · refine ⟨hfalse, hleft, ?_⟩
      rw [hcur, hidx, hnum]
    · have h' : (receive_iteration c s l e).1.1.d_delay_samps = 0 ∨
          (receive_iteration c s l e).1.2.stream_now = true := by
        rcases h with h | h
        · left; rw [hdl, hleft, h]
        · right; rw [hnow, h]
      have := ih _ _ h' r hr'
      rw [hdl, hleft, hN] at this
      exact this

/-- The index an iteration starts from is the cursor the one before left. -/
theorem receive_loop_index (c : Consts D T) (es : List (rx_env D)) :
    ∀ (s : usrp_radar_impl D T) (l : rx_locals D T),
      (∀ a, (receive_loop c s l es).2.head? = some a → a.index = l.num_samps_received) ∧
      ∀ (before : List (rx_record D)) (a b : rx_record D) (after : List (rx_record D)),
        (receive_loop c s l es).2 = before ++ a :: b :: after → b.index = a.cursor := by
  induction es with
  | nil =>
    intro s l
    refine ⟨fun a h => by simp [receive_loop] at h, fun before a b after h => ?_⟩
    simp [receive_loop] at h
  | cons e es ih =>
    intro s l
    obtain ⟨-, -, -, hcur, -, -, hidx, -⟩ := receive_iteration_facts c s l e
    rw [receive_loop_cons]
    refine ⟨fun a h => ?_, fun before a b after h => ?_⟩
    · simp only [List.head?_cons, Option.some.injEq] at h
      rw [← h, hidx]
    · cases before with
      | nil =>
        simp only [List.nil_append, List.cons.injEq] at h
        obtain ⟨h1, h2⟩ := h
        have := (ih _ _).1 b (by rw [h2]; rfl)
        rw [this, hcur, h1]
      | cons p before =>
        simp only [List.cons_append, List.cons.injEq] at h
        exact (ih _ _).2 before a b after h.2

theorem receive_loop_once (c : Consts D T) (es : List (rx_env D)) :
    ∀ (s : usrp_radar_impl D T) (l : rx_locals D T),
      ((receive_loop c s l es).2.filter (fun r => r.delay_applied)).length ≤ 1 ∧
      ∀ (before : List (rx_record D)) (r : rx_record D) (after : List (rx_record D)),
        (receive_loop c s l es).2 = before ++ r :: after → r.delay_applied = true →
        r.delay_left = 0 ∧
        ∀ r' ∈ after, r'.delay_applied = false ∧ r'.delay_left = 0 ∧
          r'.cursor = if size_t_add r'.index r'.num_rx_samps = l.num_samps_buffer then 0
            else size_t_add r'.index r'.num_rx_samps := by
  induction es with
  | nil =>
    intro s l
    refine ⟨by simp [receive_loop], fun before r after h => ?_⟩
    simp [receive_loop] at h
  | cons e es ih =>
    intro s l
    obtain ⟨hN, -, -, -, hdl, -, -, -, -, -, hyes, -⟩ := receive_iteration_facts c s l e
    rw [receive_loop_cons]
    have hrest : (receive_iteration c s l e).2.delay_applied = true →
        ∀ r' ∈ (receive_loop c (receive_iteration c s l e).1.1
            (receive_iteration c s l e).1.2 es).2,
          r'.delay_applied = false ∧ r'.delay_left = 0 ∧
          r'.cursor = if size_t_add r'.index r'.num_rx_samps = l.num_samps_buffer then 0
            else size_t_add r'.index r'.num_rx_samps := by
      intro happ r' hr'
      have h0 : (receive_iteration c s l e).1.1.d_delay_samps = 0 := by rw [hdl, hyes happ]
      have := receive_loop_no_delay c es _ _ (Or.inl h0) r' hr'
      rw [h0, hN] at this
      exact this
    refine ⟨?_, fun before r after h happ => ?_⟩
    · by_cases happ : (receive_iteration c s l e).2.delay_applied = true
      · have hnil : (receive_loop c (receive_iteration c s l e).1.1
            (receive_iteration c s l e).1.2 es).2.filter (fun r => r.delay_applied) = [] := by
          rw [List.filter_eq_nil_iff]
          intro r' hr'
          simp [(hrest happ r' hr').1]
        simp [List.filter_cons, happ, hnil]
      · simp only [List.filter_cons, happ]
        exact (ih _ _).1
    · cases before with
      | nil =>
        simp only [List.nil_append, List.cons.injEq] at h
        obtain ⟨h1, h2⟩ := h
        subst h1
        subst h2
        exact ⟨hyes happ, hrest happ⟩
      | cons p before =>
        simp only [List.cons_append, List.cons.injEq] at h
        have := (ih _ _).2 before r after h.2 happ
        rw [hN] at this
        exact this

/-- C5: over any run of `receive`, whatever `recv` delivers and whichever PDUs
are handled meanwhile, the calibration delay is applied in at most one
iteration; the iteration that applies it leaves the stored delay zero, and in
every later iteration no delay is applied, the stored delay stays zero, and the
cursor becomes the old cursor plus the number of samples received, or zero
when that sum is the record length; each iteration starts from the cursor the
one before left; with streaming started at once (the test `start_time.get_real_secs() > 0`
fails) no iteration applies the delay. -/
theorem C5_delay_applied_at_most_once (c : Consts D T) (s : usrp_radar_impl D T)
    (buffs0 : List gr_complex) (start_time : T) (max_num_samps : Nat) (es : List (rx_env D)) :
    ((receive c s buffs0 start_time max_num_samps es).2.filter
      (fun r => r.delay_applied)).length ≤ 1 ∧
    (∀ (before : List (rx_record D)) (r : rx_record D) (after : List (rx_record D)),
      (receive c s buffs0 start_time max_num_samps es).2 = before ++ r :: after →
      r.delay_applied = true →
      r.delay_left = 0 ∧
      ∀ r' ∈ after, r'.delay_applied = false ∧ r'.delay_left = 0 ∧
        r'.cursor = if size_t_add r'.index r'.num_rx_samps = buffs0.length then 0
          else size_t_add r'.index r'.num_rx_samps) ∧
    (∀ (before : List (rx_record D)) (a b : rx_record D) (after : List (rx_record D)),
      (receive c s buffs0 start_time max_num_samps es).2 = before ++ a :: b :: after →
      b.index = a.cursor) ∧
    (c.arith.zero_lt (c.arith.real_secs start_time) = false →
      ∀ r ∈ (receive c s buffs0 start_time max_num_samps es).2, r.delay_applied = false) := by
  refine ⟨(receive_loop_once c es s _).1, (receive_loop_once c es s _).2,
    (receive_loop_index c es s _).2, fun hstart r hr => ?_⟩
  have hnow : (receive_entry c s buffs0 start_time max_num_samps).stream_now = true := by
    simp [receive_entry, hstart]
  exact (receive_loop_no_delay c es s _ (Or.inr hnow) r hr).1

/-- Witness of C5: a run with delay 1 and a time-anchored start; the first
iteration applies the delay, the three later ones emit a record each and
apply nothing. -/
theorem C5_delay_applied_at_most_once_witness :
    ∃ r after, ex_rx_run.2 = r :: after ∧ r.delay_applied = true ∧
      (emitted_records after).length = 3 ∧
      ∀ r' ∈ after, r'.delay_applied = false ∧ r'.delay_left = 0 := by
  refine ⟨_, _, rfl, by decide!, by decide!, fun r' hr' => ?_⟩
  have h := ((C5_delay_applied_at_most_once ex_consts (ex_block true 1 1)
    (List.replicate 2 ((0, 0) : gr_complex)) (ex_time 1) 364
    [ex_rx_env [ex_samp 0, ex_samp 1], ex_rx_env [ex_samp 2],
     ex_rx_env [ex_samp 3, ex_samp 4], ex_rx_env [ex_samp 5, ex_samp 6]]).2.1
    [] _ _ rfl (by decide!)).2 r' hr'
  exact ⟨h.1, h.2.1⟩

/-! ## The receive loop: record length -/

theorem receive_iteration_emitted (c : Consts D T) (s : usrp_radar_impl D T) (l : rx_locals D T) (e : rx_env D)
    (p : Pmt D) (h : (receive_iteration c s l e).2.emitted = some p) :
    p = Pmt.pair (control c s e.handled).d_meta
      (Pmt.c32vector (receive_iteration c s l e).1.2.buffs0) ∧
    (receive_iteration c s l e).2.cursor = 0 ∧
    (receive_iteration c s l e).2.d_meta = Pmt.make_dict := by
  unfold receive_iteration at h ⊢
  dsimp only at h ⊢
  split_ifs at h ⊢ <;> simp_all

theorem receive_loop_emitted (c : Consts D T) (es : List (rx_env D)) :
    ∀ (s : usrp_radar_impl D T) (l : rx_locals D T), l.buffs0.length = l.num_samps_buffer →
      ∀ r ∈ (receive_loop c s l es).2, ∀ p, r.emitted = some p →
        ∃ m v, p = Pmt.pair m (Pmt.c32vector v) ∧ v.length = l.num_samps_buffer ∧
          r.cursor = 0 ∧ r.d_meta = Pmt.make_dict := by
  induction es with
  | nil => intro s l _ r hr; simp [receive_loop] at hr
  | cons e es ih =>
    intro s l hl r hr p hp
    rw [receive_loop_cons] at hr
    obtain ⟨hN, -, hlen, -⟩ := receive_iteration_facts c s l e
    rcases List.mem_cons.mp hr with rfl | hr'
    · obtain ⟨h1, h2, h3⟩ := receive_iteration_emitted c s l e p hp
      exact ⟨_, _, h1, by rw [hlen, hl], h2, h3⟩
    · have := ih _ _ (by rw [hlen, hN, hl]) r hr' p hp
      rw [hN] at this
      exact this

/-- C7: from a state in which `run` sets up its buffers with every step
defined, every record `run` publishes has the record length computed when the
stream starts (`size_t(round(d_samp_rate / d_prf))` in burst mode, the length
of the armed buffer in continuous mode, both read from the state `run` starts
in), whatever `recv` delivers and whichever PDUs are handled during the run,
and the iteration that publishes it leaves the cursor at zero. -/
theorem C7_record_length_fixed_at_start (c : Consts D T) (s : usrp_radar_impl D T)
    (device_time : T) (max_num_samps : Nat) (es : List (rx_env D))
    (_hdef : run_defined c s) :
    ∀ r ∈ (run c s device_time max_num_samps es).2, ∀ p, r.emitted = some p →
      ∃ m v, p = Pmt.pair m (Pmt.c32vector v) ∧
        v.length =
          (if s.d_burst_mode then c.arith.round_to_size_t (c.arith.div s.d_samp_rate s.d_prf)
           else s.d_tx_buff.length) ∧
        r.cursor = 0 := by
  intro r hr p hp
  have := receive_loop_emitted c es s
    (receive_entry c s (List.replicate (num_samp_rx c s) ((0, 0) : gr_complex))
      (c.arith.time_add (run_time_now c s device_time) s.d_start_time) max_num_samps)
    rfl r hr p hp
  obtain ⟨m, v, h1, h2, h3, -⟩ := this
  refine ⟨m, v, h1, ?_, h3⟩
  rw [h2]
  simp [receive_entry, num_samp_rx]

/-- Witness of C7: burst mode at 1 MHz with PRF `2e6 / 11` Hz in binary64
arithmetic, where `d_samp_rate / d_prf` is `5.5` and the record length is 6;
the record published after a six-sample waveform with PRF 1000 Hz has been
armed still has six samples. -/
theorem C7_record_length_fixed_at_start_witness :
    ∃ r, ex_run.2[2]? = some r ∧
      r.emitted = some (Pmt.pair (ex_prf_meta 1000)
        (Pmt.c32vector [ex_samp 6, ex_samp 7, ex_samp 8, ex_samp 9, ex_samp 10, ex_samp 11])) ∧
      ∃ m v, Pmt.pair (ex_prf_meta 1000)
          (Pmt.c32vector [ex_samp 6, ex_samp 7, ex_samp 8, ex_samp 9, ex_samp 10, ex_samp 11]) =
        Pmt.pair m (Pmt.c32vector v) ∧ v.length = 6 := by
  have hb : (ex_run.2[2]?).bind (fun r => r.emitted) = some (Pmt.pair (ex_prf_meta 1000)
      (Pmt.c32vector [ex_samp 6, ex_samp 7, ex_samp 8, ex_samp 9, ex_samp 10, ex_samp 11])) := by
    decide!
  have hdef : run_defined ex_consts ex_armed_real_prf := by
    refine ⟨by decide!, by decide!, by decide!⟩
  cases hr : ex_run.2[2]? with
  | none => rw [hr] at hb; cases hb
  | some r =>
    rw [hr] at hb
    have hp : r.emitted = some (Pmt.pair (ex_prf_meta 1000)
        (Pmt.c32vector [ex_samp 6, ex_samp 7, ex_samp 8, ex_samp 9, ex_samp 10, ex_samp 11])) :=
      hb
    obtain ⟨m, v, h1, h2, -⟩ := C7_record_length_fixed_at_start ex_consts ex_armed_real_prf
      (ex_time 0) 364 ex_run_envs hdef r (List.getElem?_mem hr) _ hp
    exact ⟨r, rfl, hp, m, v, h1, by rw [h2]; decide!⟩

/-! ## The receive loop: what the rewound cursor does -/

/-- C10, evaluated: record length 4, calibration delay 3, time-anchored start.
The first `recv` is asked for 4 samples and returns 2; the delay is subtracted
from a cursor of 2, which wraps to `2 ^ 64 - 1`, outside `0 .. 4`. The next
iteration indexes the buffer at `2 ^ 64 - 1` and asks `recv` for
`4 - (2 ^ 64 - 1) = 5` samples, more than the buffer holds. -/
theorem C10_cursor_wraps_below_zero :
    (receive ex_consts (ex_block true 3 1) (List.replicate 4 ((0, 0) : gr_complex))
      (ex_time 1) 364
      [ex_rx_env [ex_samp 0, ex_samp 1], ex_rx_env [ex_samp 2]]).2.map
      (fun r => (r.index, r.samps_to_receive, r.num_rx_samps, r.cursor)) =
    [(0, 4, 2, 18446744073709551615), (18446744073709551615, 5, 1, 0)] := by
  decide!

/-- C6, evaluated: record length 4, calibration delay 1, time-anchored start,
`recv` asked for 2, 2 and 1 samples and delivering samples 0-1, 2-3 and 4 of
the stream. The one record published holds samples 0, 2, 3, 4: the sample
dropped is sample 1, the last of the first call, not the leading sample 0;
samples 1 .. 4 of the stream are not what the record holds. -/
theorem C6_first_record_drops_wrong_sample :
    (receive ex_consts (ex_block true 1 1) (List.replicate 4 ((0, 0) : gr_complex))
      (ex_time 1) 2
      [ex_rx_env [ex_samp 0, ex_samp 1], ex_rx_env [ex_samp 2, ex_samp 3],
       ex_rx_env [ex_samp 4]]).2.map (fun r => (r.samps_to_receive, r.num_rx_samps)) =
      [(2, 2), (2, 2), (1, 1)] ∧
    (emitted_records (receive ex_consts (ex_block true 1 1)
      (List.replicate 4 ((0, 0) : gr_complex)) (ex_time 1) 2
      [ex_rx_env [ex_samp 0, ex_samp 1], ex_rx_env [ex_samp 2, ex_samp 3],
       ex_rx_env [ex_samp 4]]).2).map Pmt.cdr =
      [some (Pmt.c32vector [ex_samp 0, ex_samp 2, ex_samp 3, ex_samp 4])] ∧
    ((delivered_stream [ex_rx_env [ex_samp 0, ex_samp 1], ex_rx_env [ex_samp 2, ex_samp 3],
       ex_rx_env [ex_samp 4]]).drop 1).take 4 =
      [ex_samp 1, ex_samp 2, ex_samp 3, ex_samp 4] := by
  decide!

/-! ## Metadata on emission -/

theorem assv_dict_add_self (d key v : Pmt D) (hk : Pmt.eqv key key = true) :
    Pmt.assv key (Pmt.dict_add d key v) = Pmt.pair key v := by
  unfold Pmt.dict_add
  split_ifs <;> simp [Pmt.assv, hk]

theorem dict_ref_dict_add_self (d key v not_found : Pmt D) (hk : Pmt.eqv key key = true) :
    Pmt.dict_ref (Pmt.dict_add d key v) key not_found = v := by
  simp [Pmt.dict_ref, assv_dict_add_self d key v hk]

theorem eqv_symbol_self (a : String) :
    Pmt.eqv (Pmt.symbol a : Pmt D) (Pmt.symbol a) = true := by
  simp [Pmt.eqv]

/-- C8, counterexample: a block whose session metadata holds an annotation
entry publishes a record; after the emission the session metadata has no
annotation entry at all. -/
theorem C8_no_annotation_after_emission :
    Pmt.dict_has_key (ex_block false 0 0).d_meta (PMT_ANNOTATIONS ex_consts) = true ∧
    (receive_iteration ex_consts (ex_block false 0 0)
      (receive_entry ex_consts (ex_block false 0 0) (List.replicate 2 ((0, 0) : gr_complex)) (ex_time 0) 364)
      (ex_rx_env [ex_samp 0, ex_samp 1])).2.emitted =
      some (Pmt.pair (ex_block false 0 0).d_meta (Pmt.c32vector [ex_samp 0, ex_samp 1])) ∧
    Pmt.dict_has_key (receive_iteration ex_consts (ex_block false 0 0)
      (receive_entry ex_consts (ex_block false 0 0) (List.replicate 2 ((0, 0) : gr_complex)) (ex_time 0) 364)
      (ex_rx_env [ex_samp 0, ex_samp 1])).1.1.d_meta (PMT_ANNOTATIONS ex_consts) = false := by
  decide!

/-- C8, amended: an iteration of the receive loop that publishes a record
publishes the session metadata as it stands and leaves the session metadata
an empty dictionary, without annotation entry; the annotation entry whose
start-sample is the current sample counter is written by the burst transmit
loop when it adopts an armed waveform. -/
theorem C8_emission_clears_metadata (c : Consts D T) (s : usrp_radar_impl D T) (l : rx_locals D T)
    (e : rx_env D) (p : Pmt D) (h : (receive_iteration c s l e).2.emitted = some p) :
    (∃ v, p = Pmt.pair (control c s e.handled).d_meta (Pmt.c32vector v)) ∧
    (receive_iteration c s l e).1.1.d_meta = Pmt.make_dict ∧
    Pmt.dict_has_key (receive_iteration c s l e).1.1.d_meta (PMT_ANNOTATIONS c) = false ∧
    ∀ (s' : usrp_radar_impl D T) (l' : tx_locals T), s'.d_armed = true →
      Pmt.dict_ref
        (Pmt.dict_ref (bursts_claim c s' l').1.d_meta (PMT_ANNOTATIONS c) Pmt.PMT_NIL)
        (PMT_SAMPLE_START c) Pmt.PMT_NIL = Pmt.from_long (s'.d_sample_count : Int) := by
  obtain ⟨h1, -, h3⟩ := receive_iteration_emitted c s l e p h
  have hm := (receive_iteration_facts c s l e).2.2.2.2.2.1
  refine ⟨⟨_, h1⟩, by rw [hm, h3], ?_, ?_⟩
  · rw [hm, h3]; rfl
  · intro s' l' harmed
    simp only [bursts_claim, harmed, if_true, bursts_adopt, PMT_ANNOTATIONS, PMT_SAMPLE_START]
    rw [dict_ref_dict_add_self _ _ _ _ (eqv_symbol_self _),
      dict_ref_dict_add_self _ _ _ _ (eqv_symbol_self _)]

/-- Witness of C8 (amended), on the run of the counterexample. -/
theorem C8_emission_clears_metadata_witness :
    (receive_iteration ex_consts (ex_block false 0 0)
      (receive_entry ex_consts (ex_block false 0 0) (List.replicate 2 ((0, 0) : gr_complex)) (ex_time 0) 364)
      (ex_rx_env [ex_samp 0, ex_samp 1])).1.1.d_meta = Pmt.make_dict :=
  (C8_emission_clears_metadata ex_consts (ex_block false 0 0)
    (receive_entry ex_consts (ex_block false 0 0) (List.replicate 2 ((0, 0) : gr_complex)) (ex_time 0) 364)
    (ex_rx_env [ex_samp 0, ex_samp 1])
    (Pmt.pair (ex_block false 0 0).d_meta (Pmt.c32vector [ex_samp 0, ex_samp 1]))
    (by decide!)).2.1

/-! ## Dictionary update and the transmission mode -/

theorem eqv_eq (a b : Pmt D) (h : Pmt.eqv a b = true) : a = b := by
  cases a <;> cases b <;> simp_all [Pmt.eqv]

theorem eqv_comm (a b : Pmt D) : Pmt.eqv a b = Pmt.eqv b a := by
  cases a <;> cases b <;> simp [Pmt.eqv, eq_comm]

/-- When `dict_has_key` finds the key, `dict_delete` does not raise, and it
leaves the cells of all other keys where they are. -/
theorem dict_delete_of_has_key (key : Pmt D) :
    ∀ d : Pmt D, Pmt.dict_has_key d key = true →
      ∃ d', Pmt.dict_delete key d = some d' ∧
        ∀ q, Pmt.eqv q key = false → Pmt.assv q d' = Pmt.assv q d := by
  intro d
  induction d with
  | pair a rest _ ih =>
    intro h
    cases a with
    | pair k v =>
      by_cases hk : Pmt.eqv k key = true
      · refine ⟨rest, by simp [Pmt.dict_delete, hk], fun q hq => ?_⟩
        have : Pmt.eqv q k = false := by rw [eqv_eq k key hk]; exact hq
        simp [Pmt.assv, this]
      · have hk' : Pmt.eqv key k = false := by
          rw [eqv_comm]; simpa using hk
        have hrest : Pmt.dict_has_key rest key = true := by
          simpa [Pmt.dict_has_key, Pmt.assv, hk'] using h
        obtain ⟨d', hd', hq'⟩ := ih hrest
        refine ⟨Pmt.pair (Pmt.pair k v) d', by simp [Pmt.dict_delete, hk, hd'], fun q hq => ?_⟩
        by_cases hqk : Pmt.eqv q k = true
        · simp [Pmt.assv, hqk]
        · simp [Pmt.assv, hqk, hq' q hq]
    | _ => simp [Pmt.dict_has_key, Pmt.assv, Pmt.PMT_F, Pmt.is_pair] at h
  | _ => intro h; simp [Pmt.dict_has_key, Pmt.assv, Pmt.PMT_F, Pmt.is_pair] at h

theorem assv_dict_add_other (d key v q : Pmt D) (hq : Pmt.eqv q key = false) :
    Pmt.assv q (Pmt.dict_add d key v) = Pmt.assv q d := by
  unfold Pmt.dict_add
  split_ifs with h1 h2
  · cases d <;> simp [Pmt.is_null] at h1
    simp [Pmt.assv, hq, Pmt.PMT_NIL]
  · obtain ⟨d', hd', hq'⟩ := dict_delete_of_has_key key d h2
    simp [Pmt.assv, hq, hd', hq' q hq]
  · simp [Pmt.assv, hq]

theorem dict_ref_of_assv (d q not_found k v : Pmt D) (h : Pmt.assv q d = Pmt.pair k v) :
    Pmt.dict_ref d q not_found = v := by
  simp [Pmt.dict_ref, h]

/-- The fold of `dict_update` over a list of keys: a key that matches none of
them keeps its cell; a key that matches one of them gets the value `dict2`
gives it. -/
theorem dict_update_fold (dict2 q : Pmt D) (hq : Pmt.eqv q q = true) (ks : List (Pmt D)) :
    ∀ d : Pmt D,
      ((∀ k ∈ ks, Pmt.eqv q k = false) →
        Pmt.assv q (ks.foldl (fun d k => Pmt.dict_add d k (Pmt.dict_ref dict2 k Pmt.PMT_NIL)) d) =
          Pmt.assv q d) ∧
      ((∃ k ∈ ks, Pmt.eqv q k = true) → ∀ not_found,
        Pmt.dict_ref (ks.foldl (fun d k => Pmt.dict_add d k (Pmt.dict_ref dict2 k Pmt.PMT_NIL)) d)
          q not_found = Pmt.dict_ref dict2 q Pmt.PMT_NIL) := by
  induction ks with
  | nil =>
    intro d
    exact ⟨fun _ => rfl, fun h => by simp at h⟩
  | cons k ks ih =>
    intro d
    simp only [List.foldl_cons]
    refine ⟨fun h => ?_, fun h not_found => ?_⟩
    · rw [(ih _).1 (fun k' hk' => h k' (List.mem_cons_of_mem k hk'))]
      exact assv_dict_add_other d k _ q (h k (List.mem_cons_self k ks))
    · by_cases hks : ∃ k' ∈ ks, Pmt.eqv q k' = true
      · exact (ih _).2 hks not_found
      · have hnone : ∀ k' ∈ ks, Pmt.eqv q k' = false := by
          intro k' hk'
          by_contra hc
          exact hks ⟨k', hk', by simpa using hc⟩
        obtain ⟨k', hk', hqk'⟩ := h
        rcases List.mem_cons.mp hk' with rfl | hk'
        · have hkq := eqv_eq q k' hqk'
          subst hkq
          exact dict_ref_of_assv _ _ _ _ _
            (((ih _).1 hnone).trans (assv_dict_add_self d q _ hq))
        · exact absurd hqk' (by simp [hnone k' hk'])

theorem map_car_of_assv (q : Pmt D) :
    ∀ (d : Pmt D) (ks : List (Pmt D)), Pmt.map_car d = some ks → Pmt.is_pair (Pmt.assv q d) = true →
      ∃ k ∈ ks, Pmt.eqv q k = true := by
  intro d
  induction d with
  | pair a rest _ ih =>
    intro ks hks h
    cases a with
    | pair k v =>
      simp only [Pmt.map_car, Option.map_eq_some'] at hks
      obtain ⟨ks', hks', rfl⟩ := hks
      by_cases hqk : Pmt.eqv q k = true
      · exact ⟨k, List.mem_cons_self k ks', hqk⟩
      · simp only [Pmt.assv, hqk] at h
        obtain ⟨k', hk', hqk'⟩ := ih ks' hks' (by simpa using h)
        exact ⟨k', List.mem_cons_of_mem k hk', hqk'⟩
    | _ => simp [Pmt.assv, Pmt.PMT_F, Pmt.is_pair] at h
  | _ => intro ks _ h; simp [Pmt.assv, Pmt.PMT_F, Pmt.is_pair] at h

/-- An entry of `dict2` with a value other than nil is, after `dict_update`,
the entry of the merged dictionary. -/
theorem dict_ref_dict_update (dict1 dict2 m q : Pmt D) (hq : Pmt.eqv q q = true)
    (hm : Pmt.dict_update dict1 dict2 = some m)
    (h : Pmt.is_null (Pmt.dict_ref dict2 q Pmt.PMT_NIL) = false) :
    Pmt.dict_ref m q Pmt.PMT_NIL = Pmt.dict_ref dict2 q Pmt.PMT_NIL := by
  simp only [Pmt.dict_update, Option.map_eq_some', Pmt.dict_keys] at hm
  obtain ⟨ks, hks, rfl⟩ := hm
  have hks' : Pmt.map_car dict2 = some ks := by
    split_ifs at hks
    exact hks
  have hpair : Pmt.is_pair (Pmt.assv q dict2) = true := by
    unfold Pmt.dict_ref at h
    split at h
    · rename_i k v heq
      rw [heq]; rfl
    · simp [Pmt.PMT_NIL, Pmt.is_null] at h
  exact (dict_update_fold dict2 q hq ks dict1).2 (map_car_of_assv q dict2 ks hks' hpair) _

theorem hm_parse_returned (c : Consts D T) (s s1 : usrp_radar_impl D T) (metadata : Pmt D)
    (h : hm_parse c s metadata = Outcome.returned s1) :
    ∃ m, Pmt.dict_update s.d_meta metadata = some m ∧ s1.d_meta = m ∧
      (Pmt.is_null (Pmt.dict_ref m (PMT_ANNOTATIONS c) Pmt.PMT_NIL) = false →
        (s1.d_burst_mode = true ↔
          Pmt.is_null (Pmt.dict_ref (Pmt.dict_ref m (PMT_ANNOTATIONS c) Pmt.PMT_NIL)
            (PMT_PRF c) Pmt.PMT_NIL) = false)) ∧
      (Pmt.is_null (Pmt.dict_ref m (PMT_ANNOTATIONS c) Pmt.PMT_NIL) = true →
        s1.d_burst_mode = s.d_burst_mode) := by
  unfold hm_parse at h
  split at h
  · cases h
  · rename_i m hm
    refine ⟨m, hm, ?_⟩
    dsimp only at h
    split at h
    · cases h
    · rename_i s2 hs2
      cases h
      by_cases hnull : Pmt.is_null (Pmt.dict_ref m (PMT_ANNOTATIONS c) Pmt.PMT_NIL) = true
      · simp only [hnull, Bool.not_true, Bool.false_eq_true, if_false, Option.some.injEq] at hs2
        subst hs2
        simp [hnull]
      · simp only [hnull, Bool.not_false, if_true] at hs2
        unfold hm_prf at hs2
        dsimp only at hs2
        split at hs2
        · rename_i hprf
          cases hs2
          simp_all
        · rename_i hprf
          split at hs2
          · cases hs2
          · cases hs2
            simp_all

/-- C2, counterexample: after a PDU whose annotations carry a PRF has put the
block in burst mode, a PDU with empty metadata (no PRF key, no annotations)
and a 500-sample waveform is handled to the end and leaves the block in burst
mode, with the burst-mode zeros in front of the 500 samples. -/
theorem C2_plain_pdu_after_prf_stays_burst :
    (handle_message ex_consts (ex_block false 0 0) ex_msg0).state.d_burst_mode = true ∧
    Pmt.is_pdu ex_msg_plain = true ∧
    Pmt.car ex_msg_plain = some Pmt.make_dict ∧
    (handle_message ex_consts (handle_message ex_consts (ex_block false 0 0) ex_msg0).state
      ex_msg_plain).is_returned = true ∧
    (handle_message ex_consts (handle_message ex_consts (ex_block false 0 0) ex_msg0).state
      ex_msg_plain).state.d_burst_mode = true ∧
    (handle_message ex_consts (handle_message ex_consts (ex_block false 0 0) ex_msg0).state
      ex_msg_plain).state.d_tx_buff.length = 502 := by
  decide!

/-- C2, amended: when `handle_message` handles a PDU to the end, the mode
afterwards is decided by the value of the annotations entry of the session
metadata merged with the metadata of the PDU. If that value is not null, the
mode is burst when it holds a PRF value that is not null and continuous when
it does not. If that value is null (no annotations entry, or an entry whose
value is null, as the empty dictionary is) the mode is the one before. When
the metadata of the PDU has an annotations entry that is not null itself, that
entry is the one consulted, so the mode is burst exactly when the annotations
of the PDU hold a PRF value that is not null. -/
theorem C2_mode_follows_merged_annotations (c : Consts D T) (s s' : usrp_radar_impl D T)
    (metadata payload : Pmt D)
    (hpdu : Pmt.is_pdu (Pmt.pair metadata payload) = true)
    (h : handle_message c s (Pmt.pair metadata payload) = Outcome.returned s') :
    ∃ m, Pmt.dict_update s.d_meta metadata = some m ∧ s'.d_meta = m ∧
      (Pmt.is_null (Pmt.dict_ref m (PMT_ANNOTATIONS c) Pmt.PMT_NIL) = false →
        (s'.d_burst_mode = true ↔
          Pmt.is_null (Pmt.dict_ref (Pmt.dict_ref m (PMT_ANNOTATIONS c) Pmt.PMT_NIL)
            (PMT_PRF c) Pmt.PMT_NIL) = false)) ∧
      (Pmt.is_null (Pmt.dict_ref m (PMT_ANNOTATIONS c) Pmt.PMT_NIL) = true →
        s'.d_burst_mode = s.d_burst_mode) ∧
      (Pmt.is_null (Pmt.dict_ref metadata (PMT_ANNOTATIONS c) Pmt.PMT_NIL) = false →
        Pmt.dict_ref m (PMT_ANNOTATIONS c) Pmt.PMT_NIL =
          Pmt.dict_ref metadata (PMT_ANNOTATIONS c) Pmt.PMT_NIL ∧
        (s'.d_burst_mode = true ↔
          Pmt.is_null (Pmt.dict_ref (Pmt.dict_ref metadata (PMT_ANNOTATIONS c) Pmt.PMT_NIL)
            (PMT_PRF c) Pmt.PMT_NIL) = false)) := by
  rw [handle_message_pdu c s _ _ hpdu] at h
  split at h
  · cases h
  · rename_i s1 hs1
    split at h
    · cases h
    · rename_i s2 hs2
      obtain ⟨v, -, rfl⟩ := hm_assign_returned s1 s2 _ hs2
      cases h
      obtain ⟨m, hm, hmeta, hburst, hkeep⟩ := hm_parse_returned c s s1 metadata hs1
      have hb : (hm_arm (hm_pad c { s1 with d_tx_buff := v })).d_burst_mode = s1.d_burst_mode := by
        unfold hm_arm hm_pad
        split <;> rfl
      have hmm : (hm_arm (hm_pad c { s1 with d_tx_buff := v })).d_meta = s1.d_meta := by
        unfold hm_arm hm_pad
        split <;> rfl
      refine ⟨m, hm, by rw [hmm, hmeta], ?_, ?_, ?_⟩
      · intro hn; rw [hb]; exact hburst hn
      · intro hn; rw [hb]; exact hkeep hn
      · intro hn
        have heq := dict_ref_dict_update s.d_meta metadata m (PMT_ANNOTATIONS c)
          (eqv_symbol_self _) hm hn
        refine ⟨heq, ?_⟩
        rw [hb, ← heq]
        exact hburst (by rw [heq]; exact hn)

/-- Witness of C2 (amended): the PDU with PRF 1000 Hz in its annotations puts
a continuous-mode block in burst mode; a PDU whose annotations entry is the
empty dictionary then leaves it in burst mode, the value of the entry being
null. -/
theorem C2_mode_follows_merged_annotations_witness :
    (handle_message ex_consts (ex_block false 0 0) ex_msg0).state.d_burst_mode = true ∧
    Pmt.dict_has_key (Pmt.dict_add Pmt.make_dict (PMT_ANNOTATIONS ex_consts) Pmt.make_dict)
      (PMT_ANNOTATIONS ex_consts) = true ∧
    (handle_message ex_consts ex_armed ex_msg_empty_annotations).state.d_burst_mode =
      ex_armed.d_burst_mode := by
  obtain ⟨m, -, -, h3, -, h5⟩ := C2_mode_follows_merged_annotations ex_consts
    (ex_block false 0 0) (handle_message ex_consts (ex_block false 0 0) ex_msg0).state
    (ex_prf_meta 1000) (Pmt.c32vector ex_w0) (by decide) (by decide!)
  obtain ⟨m', h1', -, -, h4', -⟩ := C2_mode_follows_merged_annotations ex_consts
    ex_armed (handle_message ex_consts ex_armed ex_msg_empty_annotations).state
    (Pmt.dict_add Pmt.make_dict (PMT_ANNOTATIONS ex_consts) Pmt.make_dict)
    (Pmt.c32vector ex_w0) (by decide) (by decide!)
  refine ⟨(h5 (by decide)).2.2 (by decide), by decide, h4' ?_⟩
  have hnull : (Pmt.dict_update ex_armed.d_meta
      (Pmt.dict_add Pmt.make_dict (PMT_ANNOTATIONS ex_consts) Pmt.make_dict)).map
      (fun d => Pmt.is_null (Pmt.dict_ref d (PMT_ANNOTATIONS ex_consts) Pmt.PMT_NIL)) =
      some true := by
    decide!
  rw [h1'] at hnull
  exact Option.some.inj hnull

/-! ## Interleaving: what a `send` reads -/

/-- The three parts of `handle_message` that the interleaving runs one at a
time make up `handle_message` when nothing runs in between. -/
theorem machine_ctrl_sequential (c : Consts D T) (m : machine D T) (msg : Pmt D)
    (hidle : m.ctrl = ctrl_pc.idle) :
    (machine_run c m [sched.ctrl_begin msg, sched.ctrl_next, sched.ctrl_next]).blk =
      (handle_message c m.blk msg).state ∧
    (machine_run c m [sched.ctrl_begin msg, sched.ctrl_next, sched.ctrl_next]).ctrl =
      ctrl_pc.idle := by
  simp only [machine_run, List.foldl_cons, List.foldl_nil, machine_step]
  unfold ctrl_begin_step handle_message
  rw [hidle]
  cases msg with
  | pair metadata payload =>
    dsimp only
    by_cases hpdu : Pmt.is_pdu (Pmt.pair metadata payload) = true
    · simp only [hpdu, if_true]
      cases hm_parse c m.blk metadata with
      | raised s1 => simp [ctrl_next_step, hidle, Outcome.state]
      | returned s1 =>
        dsimp only
        cases hm_assign s1 payload with
        | raised s2 => simp [ctrl_next_step, hidle, Outcome.state]
        | returned s2 => simp [ctrl_next_step, Outcome.state]
    · simp [hpdu, ctrl_next_step, hidle, Outcome.state]
  | _ => simp [ctrl_next_step, hidle, Outcome.state]

/-- The parts of the loop body of `transmit_bursts` that the interleaving runs
one at a time make up one iteration when nothing runs in between: five steps
when a buffer is armed, four when none is (the fifth is then the `d_armed` test
of the next iteration, which changes no data). -/
theorem machine_tx_sequential (c : Consts D T) (m : machine D T) (r1 r2 : send_result)
    (hidle : m.ctrl = ctrl_pc.idle) (htest : m.txpc = tx_pc.test) :
    (machine_run c m [sched.tx_next, sched.tx_next, sched.tx_next, sched.tx_next,
        sched.tx_next]).blk =
      (bursts_iteration c m.blk m.tx
        { before := [], during := [], pulse_result := r1, eob_result := r2 }).1.1 ∧
    (machine_run c m [sched.tx_next, sched.tx_next, sched.tx_next, sched.tx_next,
        sched.tx_next]).tx =
      (bursts_iteration c m.blk m.tx
        { before := [], during := [], pulse_result := r1, eob_result := r2 }).1.2 ∧
    (machine_run c m [sched.tx_next, sched.tx_next, sched.tx_next, sched.tx_next,
        sched.tx_next]).sent =
      m.sent ++ [(bursts_iteration c m.blk m.tx
          { before := [], during := [], pulse_result := r1, eob_result := r2 }).2.pulse,
        (bursts_iteration c m.blk m.tx
          { before := [], during := [], pulse_result := r1, eob_result := r2 }).2.eob] := by
  simp only [machine_run, List.foldl_cons, List.foldl_nil, machine_step]
  unfold bursts_iteration bursts_claim
  by_cases harmed : m.blk.d_armed = true
  · simp [tx_next_step, htest, hidle, harmed, control, bursts_adopt, bursts_send, bursts_eob,
      bursts_advance]
  · simp [tx_next_step, htest, hidle, harmed, control, bursts_send, bursts_eob,
      bursts_advance]

/-- C4, evaluated: the control thread arms the four-sample waveform (two zeros
and four samples), then, while the transmit thread is between its `d_armed`
test and its `send`, enters `handle_message` with the six-sample waveform and
assigns it to `d_tx_buff` (line 147; six samples into the storage of a
six-sample buffer). The `send` of line 201 is not under the mutex and reads
through the pointer into `d_tx_buff`: the second pulse is the six new samples
without their zeros, which is neither the buffer armed before nor the buffer
armed by the second message. -/
theorem C4_send_reads_buffer_being_written :
    ex_armed.d_tx_buff = [(0, 0), (0, 0), (1, 0), (2, 0), (3, 0), (4, 0)] ∧
    (handle_message ex_consts ex_armed ex_msg1).state.d_tx_buff =
      [(0, 0), (0, 0), (5, 0), (6, 0), (7, 0), (8, 0), (9, 0), (10, 0)] ∧
    pulses (machine_run ex_consts (machine_start ex_consts ex_armed (ex_time 0)) ex_schedule).sent =
      [[(0, 0), (0, 0), (1, 0), (2, 0), (3, 0), (4, 0)],
       [(5, 0), (6, 0), (7, 0), (8, 0), (9, 0), (10, 0)],
       [(0, 0), (0, 0), (5, 0), (6, 0), (7, 0), (8, 0), (9, 0), (10, 0)]] := by
  decide!

/-- C3, evaluated: burst mode, zero count 2. The control thread has entered
`handle_message` with the six-sample waveform and run line 147, not yet lines
148-154: `d_tx_buff` holds the six samples without zeros in front. The `send`
of line 201, which is not under the mutex, then transmits exactly these six
samples: the buffer the transmit engine sees is not two zeros followed by the
waveform. -/
theorem C3_waveform_visible_without_zeros :
    start_zeros_len ex_consts ex_armed = 2 ∧
    (machine_run ex_consts (machine_start ex_consts ex_armed (ex_time 0))
      (ex_schedule.take 7)).blk.d_burst_mode = true ∧
    (machine_run ex_consts (machine_start ex_consts ex_armed (ex_time 0))
      (ex_schedule.take 7)).blk.d_tx_buff = ex_w1 ∧
    ((machine_run ex_consts (machine_start ex_consts ex_armed (ex_time 0))
      (ex_schedule.take 8)).sent.getLast?).map (fun call => call.samples) = some ex_w1 ∧
    ex_w1 ≠ List.replicate 2 ((0, 0) : gr_complex) ++ ex_w1 := by
  decide!

end gr.plasma
